import Mathlib

/-!
Verification of the binero solver (`src/cell.rs`, `src/grid.rs`).

The Rust data model is embedded shallowly:
 - `Cell` is the three-variant enum of `cell.rs` (`None`, `Zero`, `One`);
 - a grid cell is `Option Cell` (the Rust `GridCell = Option<Cell>`);
 - `Grid` holds the cell matrix plus the `width`/`height` fields.

Imperative loops of `grid.rs` become folds threading `Grid × Bool`
(the `changed` flag), and the `solve`/`fill_bruteforce` recursion is
defined with an explicit fuel that is proved sufficient below
(`solveAux_stable`): with fuel `emptyCount + 1` the fuel never runs out,
which is exactly the termination argument of the Rust code.
-/

set_option maxHeartbeats 1000000

/-- The `Cell` enum of `cell.rs`: variants `None`, `Zero`, `One`. -/
inductive Cell where
  | none : Cell
  | zero : Cell
  | one : Cell
deriving DecidableEq, Repr

/-- `impl ops::Not for Cell` of `cell.rs`. -/
def Cell.not : Cell → Cell
  | Cell.none => Cell.none
  | Cell.zero => Cell.one
  | Cell.one => Cell.zero

/-- `Cell::iter` of `cell.rs`: all three variants, `None` first. -/
def Cell.iter : List Cell := [Cell.none, Cell.zero, Cell.one]

/-- The `GridError` variants used by `grid.rs`. -/
inductive GridError where
  | EmptyGrid : GridError
  | OddDimension : GridError
  | WidthMismatch : GridError
  | InvalidChar : Char → GridError
  | InvalidGrid : GridError
  | NoSolution : GridError
deriving DecidableEq, Repr

/-- `TryFrom<char> for Cell` of `cell.rs`. -/
def Cell.try_from (c : Char) : Except GridError Cell :=
  if c = '0' then Except.ok Cell.zero
  else if c = '1' then Except.ok Cell.one
  else if c = '-' then Except.ok Cell.none
  else Except.error (GridError.InvalidChar c)

/-- The `Grid` struct of `grid.rs`. -/
structure Grid where
  cells : List (List (Option Cell))
  width : Nat
  height : Nat
deriving DecidableEq, Repr

/-- The private-field invariant every Rust `Grid` maintains:
`height` is the number of rows and every row has length `width`. -/
def Grid.WF (g : Grid) : Prop :=
  g.cells.length = g.height ∧ ∀ row ∈ g.cells, row.length = g.width

instance (g : Grid) : Decidable g.WF := by
  unfold Grid.WF; infer_instance

/-- `ops::Index` for `Grid`: the cell at `(i, j)`. -/
def Grid.get (g : Grid) (i j : Nat) : Option Cell :=
  (g.cells.getD i []).getD j Option.none

/-- `Grid::set`: write the cell and report whether it changed. -/
def Grid.set (g : Grid) (i j : Nat) (v : Option Cell) : Grid × Bool :=
  let old := g.get i j
  (⟨g.cells.set i ((g.cells.getD i []).set j v), g.width, g.height⟩,
    decide (old ≠ v))

/-- `Grid::line`: row `i` as a list of cells. -/
def Grid.line (g : Grid) (i : Nat) : List (Option Cell) :=
  (List.range g.width).map (fun j => g.get i j)

/-- `Grid::column`: column `j` as a list of cells. -/
def Grid.column (g : Grid) (j : Nat) : List (Option Cell) :=
  (List.range g.height).map (fun i => g.get i j)

/-- The histogram entry of `Grid::find_count`: how many cells of the lane
hold the value `c`. -/
def countVal (lane : List (Option Cell)) (c : Cell) : Nat :=
  lane.countP (fun x => decide (x = Option.some c))

/-- The accumulator pass of `Grid::check_lane`: `false` iff three
consecutive entries are equal and non-empty (the `try_fold` of the code). -/
def adj_ok : (Option (Option Cell) × Option (Option Cell)) →
    List (Option Cell) → Bool
  | _, [] => true
  | (a, b), c :: rest =>
    match a, b with
    | Option.some x, Option.some y =>
      if x.isSome ∧ x = y ∧ y = c then false
      else adj_ok (b, Option.some c) rest
    | _, _ => adj_ok (b, Option.some c) rest

/-- `Grid::check_lane`: no three consecutive equal non-empty cells, and no
value occurring more than `size / 2` times. `true` is the code's `Ok(())`. -/
def check_lane (lane : List (Option Cell)) : Bool :=
  adj_ok (Option.none, Option.none) lane &&
    Cell.iter.all (fun c => decide (countVal lane c ≤ lane.length / 2))

/-- `Grid::check_pair`: two lanes are acceptable iff some position has an
empty left cell or differing cells. `true` is the code's `Ok(())`. -/
def check_pair (a b : List (Option Cell)) : Bool :=
  (a.zip b).any (fun p => p.1.isNone || decide (p.1 ≠ p.2))

/-- `Grid::is_valid`: every row and column passes `check_lane`, and every
pair of rows and pair of columns passes `check_pair`.  All failure paths of
the code return `InvalidGrid`, so the result is modelled as a `Bool`. -/
def Grid.is_valid (g : Grid) : Bool :=
  ((List.range g.height).all fun i =>
    check_lane (g.line i) &&
      ((List.range g.height).all fun i2 =>
        if i < i2 then check_pair (g.line i) (g.line i2) else true)) &&
  ((List.range g.width).all fun j =>
    check_lane (g.column j) &&
      ((List.range g.width).all fun j2 =>
        if j < j2 then check_pair (g.column j) (g.column j2) else true))

/-- `Grid::get_empty`: the first empty cell in row-major order. -/
def Grid.get_empty (g : Grid) : Option (Nat × Nat) :=
  (List.range g.height).findSome? fun i =>
    (List.range g.width).findSome? fun j =>
      if (g.get i j).isNone then Option.some (i, j) else Option.none

/-- Number of empty (`Option.none`) cells of the grid. -/
def Grid.emptyCount (g : Grid) : Nat :=
  (g.cells.map (fun row => row.countP (fun c => c.isNone))).sum

/-- Number of non-empty cells of the grid. -/
def Grid.determinedCount (g : Grid) : Nat :=
  (g.cells.map (fun row => row.countP (fun c => c.isSome))).sum

/-- The comment-and-whitespace stripping of `Grid::parse`:
`chars().take_while(|c| *c != '#').filter(|c| !c.is_whitespace())`. -/
def filterTokens (l : List Char) : List Char :=
  (l.takeWhile (fun c => decide (c ≠ '#'))).filter (fun c => !c.isWhitespace)

/-- One token of `Grid::parse`: `'-'` is an empty cell, anything else goes
through `Cell::try_from`. -/
def parse_cell (c : Char) : Except GridError (Option Cell) :=
  if c = '-' then Except.ok Option.none
  else (Cell.try_from c).map Option.some

/-- The `collect::<Result<Vec<_>, _>>` of `Grid::parse`: parse the tokens
left to right, stopping at the first error. -/
def parse_chars : List Char → Except GridError (List (Option Cell))
  | [] => Except.ok []
  | c :: rest =>
    match parse_cell c with
    | Except.error e => Except.error e
    | Except.ok v => (parse_chars rest).map (fun vs => v :: vs)

/-- One line of `Grid::parse`: strip comment/whitespace, then parse. -/
def parse_line (l : List Char) : Except GridError (List (Option Cell)) :=
  parse_chars (filterTokens l)

/-- The line loop of `Grid::parse`, threading the accumulated rows and the
width fixed by the first non-empty row. -/
def parse_lines : List (List Char) → List (List (Option Cell)) → Nat →
    Except GridError (List (List (Option Cell)) × Nat)
  | [], cells, width => Except.ok (cells, width)
  | l :: rest, cells, width =>
    match parse_line l with
    | Except.error e => Except.error e
    | Except.ok vec =>
      if vec.length = 0 then parse_lines rest cells width
      else if cells.length = 0 then
        if vec.length % 2 ≠ 0 then Except.error GridError.OddDimension
        else parse_lines rest (cells ++ [vec]) vec.length
      else if vec.length ≠ width then Except.error GridError.WidthMismatch
      else parse_lines rest (cells ++ [vec]) width

/-- `Grid::parse`: build the matrix, then check height and validity. -/
def Grid.parse (lines : List (List Char)) : Except GridError Grid :=
  match parse_lines lines [] 0 with
  | Except.error e => Except.error e
  | Except.ok (cells, width) =>
    if cells.length = 0 then Except.error GridError.EmptyGrid
    else if cells.length % 2 ≠ 0 then Except.error GridError.OddDimension
    else
      let g : Grid := ⟨cells, width, cells.length⟩
      if g.is_valid then Except.ok g else Except.error GridError.InvalidGrid

/-- `impl fmt::Display for Cell` (with `Grid`'s `None => "-"` case merged):
the character a grid cell renders as. -/
def cellChar : Option Cell → Char
  | Option.some Cell.zero => '0'
  | Option.some Cell.one => '1'
  | Option.some Cell.none => '-'
  | Option.none => '-'

/-- One row of `impl fmt::Display for Grid`: cells separated by spaces. -/
def renderRow : List (Option Cell) → List Char
  | [] => []
  | c :: rest => cellChar c :: rest.foldr (fun x acc => ' ' :: cellChar x :: acc) []

/-- `impl fmt::Display for Grid`, split at the newlines it writes: one list
of characters per grid row. -/
def Grid.render (g : Grid) : List (List Char) :=
  (List.range g.height).map (fun i => renderRow (g.line i))

/-- `Option::or_else` specialised to cells: first `some` wins. -/
def orElseO (a : Option Cell) (f : Unit → Option Cell) : Option Cell :=
  match a with
  | Option.some v => Option.some v
  | Option.none => f ()

/-- `Grid::fill_cell`: two equal determined neighbours force the opposite
value. -/
def fill_cell (c0 c1 : Option Cell) : Option Cell :=
  match c0, c1 with
  | Option.some a, Option.some b =>
    if a = b then Option.some (Cell.not a) else Option.none
  | _, _ => Option.none

/-- `Grid::fill_saturated`: the first `Cell::iter` value whose count has
reached `size / 2` forces its opposite on the empty cells of the lane. -/
def fill_saturated (lane : List (Option Cell)) : Option Cell :=
  (Cell.iter.find? (fun c => decide (lane.length / 2 ≤ countVal lane c))).map Cell.not

/-- The value `Grid::fill_constraints` computes for the empty cell `(i, j)`
during the row sweep: saturation, then the two previous cells, then the two
next cells, then the two surrounding cells. -/
def rowValue (g : Grid) (sat : Option Cell) (i j : Nat) : Option Cell :=
  orElseO sat (fun _ =>
  orElseO (if 2 ≤ j then fill_cell (g.get i (j - 2)) (g.get i (j - 1)) else Option.none) (fun _ =>
  orElseO (if j + 2 < g.width then fill_cell (g.get i (j + 1)) (g.get i (j + 2)) else Option.none) (fun _ =>
  if 1 ≤ j ∧ j + 1 < g.width then fill_cell (g.get i (j - 1)) (g.get i (j + 1)) else Option.none)))

/-- The value `Grid::fill_constraints` computes for the empty cell `(i, j)`
during the column sweep. -/
def colValue (g : Grid) (sat : Option Cell) (i j : Nat) : Option Cell :=
  orElseO sat (fun _ =>
  orElseO (if 2 ≤ i then fill_cell (g.get (i - 2) j) (g.get (i - 1) j) else Option.none) (fun _ =>
  orElseO (if i + 2 < g.height then fill_cell (g.get (i + 1) j) (g.get (i + 2) j) else Option.none) (fun _ =>
  if 1 ≤ i ∧ i + 1 < g.height then fill_cell (g.get (i - 1) j) (g.get (i + 1) j) else Option.none)))

/-- One cell of the row sweep of `Grid::fill_constraints`. -/
def fc_cell_row (i : Nat) (sat : Option Cell) (acc : Grid × Bool) (j : Nat) :
    Grid × Bool :=
  if (acc.1.get i j).isNone then
    let r := acc.1.set i j (rowValue acc.1 sat i j)
    (r.1, acc.2 || r.2)
  else acc

/-- One row of the row sweep of `Grid::fill_constraints`; the saturation
value is computed once from the row before the inner loop. -/
def fc_row (acc : Grid × Bool) (i : Nat) : Grid × Bool :=
  (List.range acc.1.width).foldl (fc_cell_row i (fill_saturated (acc.1.line i))) acc

/-- One cell of the column sweep of `Grid::fill_constraints`. -/
def fc_cell_col (j : Nat) (sat : Option Cell) (acc : Grid × Bool) (i : Nat) :
    Grid × Bool :=
  if (acc.1.get i j).isNone then
    let r := acc.1.set i j (colValue acc.1 sat i j)
    (r.1, acc.2 || r.2)
  else acc

/-- One column of the column sweep of `Grid::fill_constraints`. -/
def fc_col (acc : Grid × Bool) (j : Nat) : Grid × Bool :=
  (List.range acc.1.height).foldl (fc_cell_col j (fill_saturated (acc.1.column j))) acc

/-- `Grid::fill_constraints`: the row sweep, then the column sweep,
reporting whether any cell changed. -/
def fill_constraints (g : Grid) : Grid × Bool :=
  let r := (List.range g.height).foldl fc_row (g, false)
  (List.range r.1.width).foldl fc_col r

/-- The empty positions of a lane, in ascending order (the `none_idx`
vector of `Grid::try_missings`). -/
def noneIdx (lane : List (Option Cell)) : List Nat :=
  (List.range lane.length).filter (fun k => (lane.getD k Option.none).isNone)

/-- The tentative lane of `Grid::try_missings`: every empty cell replaced
by the opposite of the almost-complete value `c`. -/
def baseLane (lane : List (Option Cell)) (c : Cell) : List (Option Cell) :=
  lane.map (fun x =>
    match x with
    | Option.none => Option.some (Cell.not c)
    | y => y)

/-- The almost-complete value of `Grid::try_missings`: the first
`Cell::iter` value strictly more frequent than its opposite and exactly
`gnum` occurrences below `size / 2`. -/
def almostOf (lane : List (Option Cell)) (gnum : Nat) : Option Cell :=
  Cell.iter.findSome? fun c =>
    if countVal lane (Cell.not c) < countVal lane c ∧
        countVal lane c + gnum = lane.length / 2 then Option.some c
    else Option.none

/-- The trial of `Grid::try_missings` for one empty position `k`: put the
almost-complete value there (for `num_guess = 2`, also at one other empty
position) and re-check the lane. -/
def trialOk (gnum : Nat) (lane : List (Option Cell)) (c : Cell) (k : Nat) : Bool :=
  if gnum = 1 then check_lane ((baseLane lane c).set k (Option.some c))
  else (noneIdx lane).any fun j =>
    decide (j ≠ k) && check_lane (((baseLane lane c).set k (Option.some c)).set j (Option.some c))

/-- One `num_guess` round of `Grid::try_missings`: commit every empty
position whose every trial fails to the deficient value. -/
def tm_round (lane : List (Option Cell)) (gnum : Nat) : List (Nat × Option Cell) :=
  match almostOf lane gnum with
  | Option.none => []
  | Option.some c =>
    (noneIdx lane).filterMap fun k =>
      if trialOk gnum lane c k then Option.none
      else Option.some (k, Option.some (Cell.not c))

/-- `Grid::try_missings`: the committed positions of the two rounds
(`num_guess = 1` then `num_guess = 2`).  The Rust function returns them as
a `HashMap`; at most one round can commit anything, and the commits of one
round carry pairwise distinct positions, so the list is faithful. -/
def try_missings (lane : List (Option Cell)) : List (Nat × Option Cell) :=
  tm_round lane 1 ++ tm_round lane 2

/-- Application of one lane's `try_missings` result to row `i` of the grid
(the `changed |= self.set(...)` loop of `Grid::fill_heuristics`). -/
def fh_apply_row (i : Nat) (acc : Grid × Bool) (upds : List (Nat × Option Cell)) :
    Grid × Bool :=
  upds.foldl (fun acc p =>
    let r := acc.1.set i p.1 p.2
    (r.1, acc.2 || r.2)) acc

/-- Application of one lane's `try_missings` result to column `j`. -/
def fh_apply_col (j : Nat) (acc : Grid × Bool) (upds : List (Nat × Option Cell)) :
    Grid × Bool :=
  upds.foldl (fun acc p =>
    let r := acc.1.set p.1 j p.2
    (r.1, acc.2 || r.2)) acc

/-- One row of `Grid::fill_heuristics`. -/
def fh_row (acc : Grid × Bool) (i : Nat) : Grid × Bool :=
  fh_apply_row i acc (try_missings (acc.1.line i))

/-- One column of `Grid::fill_heuristics`. -/
def fh_col (acc : Grid × Bool) (j : Nat) : Grid × Bool :=
  fh_apply_col j acc (try_missings (acc.1.column j))

/-- `Grid::fill_heuristics`: all rows, then all columns. -/
def fill_heuristics (g : Grid) : Grid × Bool :=
  let r := (List.range g.height).foldl fh_row (g, false)
  (List.range r.1.width).foldl fh_col r

/-- The inner loop of `Grid::solve`: run `fill_constraints` until it
reports no change.  The fuel is made sufficient by `constraintsRun`. -/
def constraintsFix : Nat → Grid → Grid
  | 0, g => g
  | Nat.succ f, g =>
    let r := fill_constraints g
    if r.2 then constraintsFix f r.1 else r.1

/-- The inner loop of `Grid::solve` with its sufficient fuel. -/
def constraintsRun (g : Grid) : Grid :=
  constraintsFix (g.emptyCount + 1) g

/-- The outer loop of `Grid::solve`: constraint fixed point, then one
`fill_heuristics` pass, repeated until the heuristics report no change. -/
def outerFix : Nat → Grid → Grid
  | 0, g => g
  | Nat.succ f, g =>
    let g1 := constraintsRun g
    let r := fill_heuristics g1
    if r.2 then outerFix f r.1 else r.1

/-- The outer loop of `Grid::solve` with its sufficient fuel. -/
def outerRun (g : Grid) : Grid :=
  outerFix (g.emptyCount + 1) g

/-- `Grid::solve` and `Grid::fill_bruteforce`, fuelled: run the loops,
check validity, and if an empty cell remains try the three `Cell::iter`
values on a clone, keeping the first branch that solves. -/
def solveAux : Nat → Grid → Except GridError Grid
  | 0, _ => Except.error GridError.NoSolution
  | Nat.succ f, g =>
    let g1 := outerRun g
    if g1.is_valid then
      match g1.get_empty with
      | Option.none => Except.ok g1
      | Option.some (i, j) =>
        match solveAux f (g1.set i j (Option.some Cell.none)).1 with
        | Except.ok g2 => Except.ok g2
        | Except.error _ =>
          match solveAux f (g1.set i j (Option.some Cell.zero)).1 with
          | Except.ok g2 => Except.ok g2
          | Except.error _ =>
            match solveAux f (g1.set i j (Option.some Cell.one)).1 with
            | Except.ok g2 => Except.ok g2
            | Except.error _ => Except.error GridError.NoSolution
    else Except.error GridError.InvalidGrid

/-- `Grid::solve` with its sufficient fuel (`solveAux_stable` below shows
any larger fuel gives the same result). -/
def Grid.solve (g : Grid) : Except GridError Grid :=
  solveAux (g.emptyCount + 1) g

instance {e a : Type} [DecidableEq e] [DecidableEq a] : DecidableEq (Except e a) := fun x y =>
  match x, y with
  | Except.ok v, Except.ok w =>
    if h : v = w then Decidable.isTrue (by rw [h])
    else Decidable.isFalse (by simp [h])
  | Except.error v, Except.error w =>
    if h : v = w then Decidable.isTrue (by rw [h])
    else Decidable.isFalse (by simp [h])
  | Except.ok _, Except.error _ => Decidable.isFalse (fun h => Except.noConfusion h)
  | Except.error _, Except.ok _ => Decidable.isFalse (fun h => Except.noConfusion h)

/-- Every cell of the grid holds one of the two determined puzzle values. -/
def all01 (g : Grid) : Bool :=
  g.cells.all fun row => row.all fun c =>
    decide (c = Option.some Cell.zero ∨ c = Option.some Cell.one)

/-- The text of an empty 4×4 puzzle (four lines of `- - - -`). -/
def input4 : List (List Char) :=
  List.replicate 4 ['-', ' ', '-', ' ', '-', ' ', '-']

/-- The empty 4×4 grid, as `Grid::parse` builds it from `input4`. -/
def g4 : Grid := ⟨List.replicate 4 (List.replicate 4 Option.none), 4, 4⟩

/-- The grid `Grid::solve` actually returns on `g4`: positions `(0,0)` and
`(1,1)` hold `Some(Cell::None)`, the undetermined marker wrapped as a
present value. -/
def gN : Grid := ⟨[
  [Option.some Cell.none, Option.some Cell.zero, Option.some Cell.zero, Option.some Cell.one],
  [Option.some Cell.zero, Option.some Cell.none, Option.some Cell.zero, Option.some Cell.one],
  [Option.some Cell.zero, Option.some Cell.one, Option.some Cell.one, Option.some Cell.zero],
  [Option.some Cell.one, Option.some Cell.zero, Option.some Cell.one, Option.some Cell.zero]], 4, 4⟩

/-- A 6×4 grid that passes `is_valid` but whose single `fill_constraints`
pass forces three consecutive `One`s into column 2. -/
def cex3 : Grid := ⟨[
  [Option.some Cell.zero, Option.some Cell.zero, Option.none, Option.none, Option.none, Option.none],
  [Option.none, Option.none, Option.none, Option.some Cell.zero, Option.some Cell.zero, Option.none],
  [Option.none, Option.some Cell.zero, Option.none, Option.some Cell.zero, Option.none, Option.none],
  [Option.none, Option.none, Option.none, Option.none, Option.none, Option.none]], 6, 4⟩

/-- The all-zeros 2×2 grid: fully determined but not `is_valid`. -/
def g00 : Grid :=
  ⟨[[Option.some Cell.zero, Option.some Cell.zero],
    [Option.some Cell.zero, Option.some Cell.zero]], 2, 2⟩

/-- Invariant carried through one `fill_constraints`/`fill_heuristics`
pass started at grid `g0`: the grid stays well-formed with the same
dimensions, empty cells only get filled (never the reverse), the `changed`
flag implies a strict fill, and determined cells keep their values. -/
def StepInv (g0 : Grid) (acc : Grid × Bool) : Prop :=
  acc.1.WF ∧ acc.1.width = g0.width ∧ acc.1.height = g0.height ∧
  acc.1.emptyCount ≤ g0.emptyCount ∧
  (acc.2 = true → acc.1.emptyCount < g0.emptyCount) ∧
  (acc.2 = false → acc.1 = g0) ∧
  (∀ a b c, g0.get a b = Option.some c → acc.1.get a b = Option.some c)

/-- A lane (or grid row) containing no `Some(Cell::None)` cell — the
data-model reading in which "determined" means `Zero` or `One`. -/
def NoneFree (lane : List (Option Cell)) : Prop :=
  ∀ x ∈ lane, x ≠ Option.some Cell.none

/-- Spec wording for the heuristic trigger: `c` is the surplus value of
the lane ("one value's count exceeds the other's") and its count is
exactly `d` below `size / 2`. -/
def surplusDeficit (lane : List (Option Cell)) (c : Cell) (d : Nat) : Prop :=
  countVal lane (Cell.not c) < countVal lane c ∧
  countVal lane c + d = lane.length / 2

/-- Spec wording for the deficit-1 trial: putting the surplus value at the
position (all other empties tentatively holding the deficient value) fails
lane validation. -/
def trialFails1 (lane : List (Option Cell)) (c : Cell) (k : Nat) : Prop :=
  check_lane ((baseLane lane c).set k (Option.some c)) = false

/-- Spec wording for the deficit-2 trial: putting the surplus value at the
position jointly with each other undetermined position fails lane
validation every time. -/
def trialFails2 (lane : List (Option Cell)) (c : Cell) (k : Nat) : Prop :=
  ∀ j ∈ noneIdx lane, j ≠ k →
    check_lane (((baseLane lane c).set k (Option.some c)).set j (Option.some c)) = false

/-- Spec wording for propagation rule 1 (lane saturation): a lane that
already holds `size / 2` of a determined value forces the other value. -/
def specSaturation (lane : List (Option Cell)) : Option Cell :=
  if lane.length / 2 ≤ countVal lane Cell.zero then Option.some Cell.one
  else if lane.length / 2 ≤ countVal lane Cell.one then Option.some Cell.zero
  else Option.none

/-- Spec wording for propagation rules 2–4: two determined, equal
neighbour cells force the opposite value. -/
def specPairRule (a b : Option Cell) : Option Cell :=
  match a, b with
  | Option.some x, Option.some y =>
    if x = y ∧ (x = Cell.zero ∨ x = Cell.one) then Option.some (Cell.not x)
    else Option.none
  | _, _ => Option.none

/-- The four spec propagation rules in priority order for the undetermined
cell `k`: saturation is judged on the lane as it stood when the sweep
reached this lane (`lane0`, as in the code), rules 2–4 on the current
lane. -/
def specFirstMatch (lane0 lane : List (Option Cell)) (k : Nat) : Option Cell :=
  orElseO (specSaturation lane0) (fun _ =>
  orElseO (if 2 ≤ k then
      specPairRule (lane.getD (k - 2) Option.none) (lane.getD (k - 1) Option.none)
    else Option.none) (fun _ =>
  orElseO (if k + 2 < lane.length then
      specPairRule (lane.getD (k + 1) Option.none) (lane.getD (k + 2) Option.none)
    else Option.none) (fun _ =>
  if 1 ≤ k ∧ k + 1 < lane.length then
    specPairRule (lane.getD (k - 1) Option.none) (lane.getD (k + 1) Option.none)
  else Option.none)))

/-- A 6-lane on which the deficit-1 heuristic provably forces position 2:
`0 0 - - - 1`. -/
def laneW : List (Option Cell) :=
  [Option.some Cell.zero, Option.some Cell.zero, Option.none, Option.none,
   Option.none, Option.some Cell.one]

/-- A one-row grid holding `laneW`. -/
def gH : Grid := ⟨[laneW], 6, 1⟩

/-! ### List helper lemmas -/

theorem lset_getD_self {α : Type} (d : α) :
    ∀ (l : List α) (n : Nat) (v : α), n < l.length → (l.set n v).getD n d = v
  | [], n, v, h => absurd h (by simp)
  | a :: t, 0, v, _ => rfl
  | a :: t, n + 1, v, h =>
    by simpa using lset_getD_self d t n v (by simpa using h)

theorem lset_getD_ne {α : Type} (d : α) :
    ∀ (l : List α) (n m : Nat) (v : α), n ≠ m → (l.set n v).getD m d = l.getD m d
  | [], _, _, _, _ => by simp
  | a :: t, 0, 0, v, h => absurd rfl h
  | a :: t, 0, m + 1, v, _ => by simp
  | a :: t, n + 1, 0, v, _ => by simp
  | a :: t, n + 1, m + 1, v, h =>
    by simpa using lset_getD_ne d t n m v (fun hh => h (by rw [hh]))

theorem lset_getD_id {α : Type} (d : α) :
    ∀ (l : List α) (n : Nat), n < l.length → l.set n (l.getD n d) = l
  | [], n, h => by simp
  | a :: t, 0, _ => by simp
  | a :: t, n + 1, h => by
    simpa using lset_getD_id d t n (by simpa using h)

theorem lcountP_set {α : Type} (d : α) (p : α → Bool) :
    ∀ (l : List α) (n : Nat) (v : α), n < l.length →
      (l.set n v).countP p + (if p (l.getD n d) then 1 else 0) =
        l.countP p + (if p v then 1 else 0)
  | [], n, v, h => absurd h (by simp)
  | a :: t, 0, v, _ => by
    simp only [List.set, List.getD_cons_zero, List.countP_cons]
    by_cases h1 : p v <;> by_cases h2 : p a <;> simp [h1, h2]
  | a :: t, n + 1, v, h => by
    have ih := lcountP_set d p t n v (by simpa using h)
    simp only [List.set, List.getD_cons_succ, List.countP_cons]
    omega

theorem lsum_map_set {α : Type} (d : α) (f : α → Nat) :
    ∀ (l : List α) (n : Nat) (v : α), n < l.length →
      ((l.set n v).map f).sum + f (l.getD n d) = (l.map f).sum + f v
  | [], n, v, h => absurd h (by simp)
  | a :: t, 0, v, _ => by
    simp only [List.set, List.getD_cons_zero, List.map_cons, List.sum_cons]
    omega
  | a :: t, n + 1, v, h => by
    have ih := lsum_map_set d f t n v (by simpa using h)
    simp only [List.set, List.getD_cons_succ, List.map_cons, List.sum_cons]
    omega

theorem lfoldl_inv {α β : Type} (f : β → α → β) (P : β → Prop) :
    ∀ (l : List α) (b : β), P b → (∀ b2 a, a ∈ l → P b2 → P (f b2 a)) →
      P (l.foldl f b)
  | [], b, hb, _ => hb
  | a :: t, b, hb, hstep =>
    lfoldl_inv f P t (f b a) (hstep b a (by simp) hb)
      (fun b2 x hx => hstep b2 x (by simp [hx]))

theorem lgetD_map_range {α : Type} (d : α) (f : Nat → α) (n k : Nat) (h : k < n) :
    ((List.range n).map f).getD k d = f k := by
  rw [List.getD_eq_getElem?_getD]
  rw [List.getElem?_map]
  simp [List.getElem?_range h]

theorem lmap_range_getD {α : Type} (d : α) (l : List α) :
    (List.range l.length).map (fun k => l.getD k d) = l := by
  apply List.ext_getElem?
  intro n
  by_cases h : n < l.length
  · rw [List.getElem?_map, List.getElem?_range h]
    simp [List.getD_eq_getElem?_getD, List.getElem?_eq_getElem h]
  · rw [List.getElem?_eq_none (by simpa using h)]
    rw [List.getElem?_eq_none]
    simpa using h

theorem lmem_set {α : Type} :
    ∀ (l : List α) (n : Nat) (v x : α), x ∈ l.set n v → x ∈ l ∨ x = v
  | [], n, v, x, h => Or.inl h
  | a :: t, 0, v, x, h => by
    rcases (List.mem_cons).1 h with h1 | h1
    · exact Or.inr h1
    · exact Or.inl (List.mem_cons_of_mem a h1)
  | a :: t, n + 1, v, x, h => by
    rcases (List.mem_cons).1 h with h1 | h1
    · exact Or.inl (by simp [h1])
    · rcases lmem_set t n v x h1 with h2 | h2
      · exact Or.inl (List.mem_cons_of_mem a h2)
      · exact Or.inr h2

/-! ### Grid set and get lemmas -/

theorem Grid.rowlen {g : Grid} (hW : g.WF) {i : Nat} (hi : i < g.height) :
    (g.cells.getD i []).length = g.width := by
  have hlen : i < g.cells.length := by rw [hW.1]; exact hi
  rw [List.getD_eq_getElem?_getD, List.getElem?_eq_getElem hlen]
  exact hW.2 _ (List.getElem_mem hlen)

theorem Grid.set_width (g : Grid) (i j : Nat) (v : Option Cell) :
    (g.set i j v).1.width = g.width := rfl

theorem Grid.set_height (g : Grid) (i j : Nat) (v : Option Cell) :
    (g.set i j v).1.height = g.height := rfl

theorem Grid.set_WF {g : Grid} (hW : g.WF) {i j : Nat} (hi : i < g.height)
    (v : Option Cell) : (g.set i j v).1.WF := by
  constructor
  · simpa [Grid.set] using hW.1
  · intro row hrow
    rcases lmem_set _ _ _ _ hrow with h | h
    · exact hW.2 row h
    · rw [h, List.length_set]
      exact Grid.rowlen hW hi

theorem Grid.get_set_self {g : Grid} (hW : g.WF) {i j : Nat}
    (hi : i < g.height) (hj : j < g.width) (v : Option Cell) :
    (g.set i j v).1.get i j = v := by
  have hlen : i < g.cells.length := by rw [hW.1]; exact hi
  have hrow : j < (g.cells.getD i []).length := by rw [Grid.rowlen hW hi]; exact hj
  show ((g.cells.set i _).getD i []).getD j Option.none = v
  rw [lset_getD_self _ _ _ _ hlen]
  exact lset_getD_self _ _ _ _ hrow

theorem Grid.get_set_ne {g : Grid} {i j a b : Nat}
    (h : ¬(a = i ∧ b = j)) (v : Option Cell) :
    (g.set i j v).1.get a b = g.get a b := by
  show ((g.cells.set i _).getD a []).getD b Option.none = _
  by_cases hai : i = a
  · subst hai
    have hbj : j ≠ b := fun hh => h ⟨rfl, hh.symm⟩
    by_cases hlen : i < g.cells.length
    · rw [lset_getD_self _ _ _ _ hlen]
      exact lset_getD_ne _ _ _ _ _ hbj
    · rw [List.set_eq_of_length_le (Nat.le_of_not_lt hlen)]
      rfl
  · rw [lset_getD_ne _ _ _ _ _ hai]
    rfl

theorem Grid.set_id {g : Grid} (hW : g.WF) {i j : Nat}
    (hi : i < g.height) (hj : j < g.width) {v : Option Cell}
    (hv : g.get i j = v) : (g.set i j v).1 = g := by
  have hlen : i < g.cells.length := by rw [hW.1]; exact hi
  have hrow : j < (g.cells.getD i []).length := by rw [Grid.rowlen hW hi]; exact hj
  have h1 : (g.cells.getD i []).set j v = g.cells.getD i [] := by
    rw [← hv]
    exact lset_getD_id _ _ _ hrow
  show Grid.mk (g.cells.set i _) g.width g.height = g
  rw [h1]
  have h2 : g.cells.set i (g.cells.getD i []) = g.cells := lset_getD_id _ _ _ hlen
  rw [h2]

theorem Grid.set_changed {g : Grid} {i j : Nat} {v : Option Cell} :
    (g.set i j v).2 = true ↔ g.get i j ≠ v := by
  simp [Grid.set]

theorem Grid.emptyCount_set {g : Grid} (hW : g.WF) {i j : Nat}
    (hi : i < g.height) (hj : j < g.width) (v : Option Cell) :
    (g.set i j v).1.emptyCount + (if (g.get i j).isNone then 1 else 0) =
      g.emptyCount + (if v.isNone then 1 else 0) := by
  have hlen : i < g.cells.length := by rw [hW.1]; exact hi
  have hrow : j < (g.cells.getD i []).length := by rw [Grid.rowlen hW hi]; exact hj
  have h1 := lsum_map_set ([] : List (Option Cell))
    (fun row => row.countP (fun c => c.isNone)) g.cells i
    ((g.cells.getD i []).set j v) hlen
  have h2 := lcountP_set Option.none (fun c => c.isNone)
    (g.cells.getD i []) j v hrow
  simp only [] at h1 h2
  simp only [Grid.emptyCount, Grid.set, Grid.get]
  omega

theorem lcount_none_some :
    ∀ (row : List (Option Cell)),
      row.countP (fun c => c.isNone) + row.countP (fun c => c.isSome) = row.length
  | [] => rfl
  | c :: t => by
    have ih := lcount_none_some t
    rcases c with _ | c <;> simp [List.countP_cons] <;> omega

theorem lsum_map_add {α : Type} (f h : α → Nat) :
    ∀ (l : List α), (l.map f).sum + (l.map h).sum = (l.map fun x => f x + h x).sum
  | [] => rfl
  | a :: t => by
    have ih := lsum_map_add f h t
    simp only [List.map_cons, List.sum_cons]
    omega

theorem Grid.empty_add_determined {g : Grid} (hW : g.WF) :
    g.emptyCount + g.determinedCount = g.height * g.width := by
  show (g.cells.map _).sum + (g.cells.map _).sum = _
  rw [lsum_map_add]
  have h1 : (g.cells.map fun row => row.countP (fun c => c.isNone) +
      row.countP (fun c => c.isSome)) = g.cells.map (fun row => row.length) := by
    exact List.map_congr_left (fun row _ => lcount_none_some row)
  rw [h1]
  have h2 : g.cells.map (fun row => row.length) = List.replicate g.height g.width := by
    rw [← hW.1]
    refine List.eq_replicate_iff.2 ⟨by simp, ?_⟩
    intro x hx
    rcases List.mem_map.1 hx with ⟨row, hrow, hlen⟩
    rw [← hlen]
    exact hW.2 row hrow
  rw [h2]
  simp [List.sum_replicate, Nat.smul_one_eq_cast]

theorem Grid.emptyCount_le {g : Grid} (hW : g.WF) :
    g.emptyCount ≤ g.height * g.width := by
  have := Grid.empty_add_determined hW
  omega

/-! ### Pass invariant lemmas -/

theorem StepInv.start {g : Grid} (hW : g.WF) : StepInv g (g, false) := by
  refine ⟨hW, rfl, rfl, Nat.le_refl _, ?_, fun _ => rfl, fun a b c h => h⟩
  intro h
  exact absurd h (by simp)

theorem StepInv.fill_some {g0 : Grid} {acc : Grid × Bool}
    (hInv : StepInv g0 acc) {i j : Nat} (hi : i < g0.height) (hj : j < g0.width)
    {v : Cell} (hold : acc.1.get i j = Option.none) :
    StepInv g0 ((acc.1.set i j (Option.some v)).1,
      acc.2 || (acc.1.set i j (Option.some v)).2) := by
  obtain ⟨hW, hw, hh, hle, hlt, hfl, hdet⟩ := hInv
  have hi2 : i < acc.1.height := by rw [hh]; exact hi
  have hj2 : j < acc.1.width := by rw [hw]; exact hj
  have hcnt := Grid.emptyCount_set hW hi2 hj2 (Option.some v) (i := i) (j := j)
  rw [hold] at hcnt
  simp at hcnt
  refine ⟨Grid.set_WF hW hi2 _, by rw [Grid.set_width]; exact hw,
    by rw [Grid.set_height]; exact hh, by dsimp only; omega, fun _ => by dsimp only; omega, ?_, ?_⟩
  · intro hfalse
    simp only [Bool.or_eq_false_iff] at hfalse
    have := Grid.set_changed (g := acc.1) (i := i) (j := j) (v := Option.some v)
    rw [hold] at this
    simp [hfalse.2] at this
  · intro a b c hc
    have h2 := hdet a b c hc
    have hne : ¬(a = i ∧ b = j) := by
      rintro ⟨rfl, rfl⟩
      rw [h2] at hold
      exact Option.noConfusion hold
    rw [Grid.get_set_ne hne]
    exact h2

theorem StepInv.fill_keep {g0 : Grid} {acc : Grid × Bool}
    (hInv : StepInv g0 acc) {i j : Nat} (hi : i < g0.height) (hj : j < g0.width)
    {w : Cell} {v : Option Cell} (hold : acc.1.get i j = Option.some w)
    (hsome : v.isSome)
    (hflagnone : acc.2 = false → acc.1.get i j = Option.none)
    (hg0none : g0.get i j = Option.none) :
    StepInv g0 ((acc.1.set i j v).1, acc.2 || (acc.1.set i j v).2) := by
  have hflag : acc.2 = true := by
    cases hf : acc.2
    · rw [hflagnone hf] at hold
      exact Option.noConfusion hold
    · rfl
  obtain ⟨hW, hw, hh, hle, hlt, hfl, hdet⟩ := hInv
  have hi2 : i < acc.1.height := by rw [hh]; exact hi
  have hj2 : j < acc.1.width := by rw [hw]; exact hj
  obtain ⟨w2, rfl⟩ := Option.isSome_iff_exists.1 hsome
  have hcnt := Grid.emptyCount_set hW hi2 hj2 (Option.some w2) (i := i) (j := j)
  rw [hold] at hcnt
  simp at hcnt
  have hlt3 := hlt hflag
  refine ⟨Grid.set_WF hW hi2 _, by rw [Grid.set_width]; exact hw,
    by rw [Grid.set_height]; exact hh, by dsimp only; omega, fun _ => by dsimp only; omega, ?_, ?_⟩
  · intro hfalse
    simp only [Bool.or_eq_false_iff] at hfalse
    rw [hflag] at hfalse
    exact absurd hfalse.1 (by simp)
  · intro a b c hc
    have h2 := hdet a b c hc
    have hne : ¬(a = i ∧ b = j) := by
      rintro ⟨rfl, rfl⟩
      rw [hc] at hg0none
      exact Option.noConfusion hg0none
    rw [Grid.get_set_ne hne]
    exact h2

theorem fc_cell_row_inv {g0 : Grid} {acc : Grid × Bool} (hInv : StepInv g0 acc)
    {i : Nat} (hi : i < g0.height) (sat : Option Cell) {j : Nat} (hj : j < g0.width) :
    StepInv g0 (fc_cell_row i sat acc j) := by
  unfold fc_cell_row
  by_cases hg : (acc.1.get i j).isNone
  · rw [if_pos hg]
    have hold : acc.1.get i j = Option.none := by
      cases h : acc.1.get i j
      · rfl
      · rw [h] at hg; exact absurd hg (by simp)
    cases hv : rowValue acc.1 sat i j
    · have hid : (acc.1.set i j Option.none).1 = acc.1 :=
        Grid.set_id hInv.1 (by rw [hInv.2.2.1]; exact hi)
          (by rw [hInv.2.1]; exact hj) hold
      have hch : (acc.1.set i j Option.none).2 = false := by
        simp [Grid.set, hold]
      show StepInv g0 ((acc.1.set i j Option.none).1,
        acc.2 || (acc.1.set i j Option.none).2)
      rw [hid, hch, Bool.or_false]
      exact hInv
    · exact StepInv.fill_some hInv hi hj hold
  · rw [if_neg hg]
    exact hInv

theorem fc_cell_col_inv {g0 : Grid} {acc : Grid × Bool} (hInv : StepInv g0 acc)
    {j : Nat} (hj : j < g0.width) (sat : Option Cell) {i : Nat} (hi : i < g0.height) :
    StepInv g0 (fc_cell_col j sat acc i) := by
  unfold fc_cell_col
  by_cases hg : (acc.1.get i j).isNone
  · rw [if_pos hg]
    have hold : acc.1.get i j = Option.none := by
      cases h : acc.1.get i j
      · rfl
      · rw [h] at hg; exact absurd hg (by simp)
    cases hv : colValue acc.1 sat i j
    · have hid : (acc.1.set i j Option.none).1 = acc.1 :=
        Grid.set_id hInv.1 (by rw [hInv.2.2.1]; exact hi)
          (by rw [hInv.2.1]; exact hj) hold
      have hch : (acc.1.set i j Option.none).2 = false := by
        simp [Grid.set, hold]
      show StepInv g0 ((acc.1.set i j Option.none).1,
        acc.2 || (acc.1.set i j Option.none).2)
      rw [hid, hch, Bool.or_false]
      exact hInv
    · exact StepInv.fill_some hInv hi hj hold
  · rw [if_neg hg]
    exact hInv

theorem fc_row_inv {g0 : Grid} {acc : Grid × Bool} (hInv : StepInv g0 acc)
    {i : Nat} (hi : i < g0.height) : StepInv g0 (fc_row acc i) := by
  unfold fc_row
  apply lfoldl_inv
  · exact hInv
  · intro acc2 j hj hInv2
    have hj2 : j < g0.width := by
      rw [← hInv.2.1]
      exact List.mem_range.1 hj
    exact fc_cell_row_inv hInv2 hi _ hj2

theorem fc_col_inv {g0 : Grid} {acc : Grid × Bool} (hInv : StepInv g0 acc)
    {j : Nat} (hj : j < g0.width) : StepInv g0 (fc_col acc j) := by
  unfold fc_col
  apply lfoldl_inv
  · exact hInv
  · intro acc2 i hi hInv2
    have hi2 : i < g0.height := by
      rw [← hInv.2.2.1]
      exact List.mem_range.1 hi
    exact fc_cell_col_inv hInv2 hj _ hi2

theorem fill_constraints_inv {g : Grid} (hW : g.WF) :
    StepInv g (fill_constraints g) := by
  unfold fill_constraints
  have h1 : StepInv g ((List.range g.height).foldl fc_row (g, false)) := by
    apply lfoldl_inv
    · exact StepInv.start hW
    · intro acc i hi hInv
      exact fc_row_inv hInv (List.mem_range.1 hi)
  apply lfoldl_inv
  · exact h1
  · intro acc j hj hInv
    have hj2 : j < g.width := by
      rw [← h1.2.1]
      exact List.mem_range.1 hj
    exact fc_col_inv hInv hj2

theorem Grid.line_length (g : Grid) (i : Nat) : (g.line i).length = g.width := by
  simp [Grid.line]

theorem Grid.column_length (g : Grid) (j : Nat) : (g.column j).length = g.height := by
  simp [Grid.column]

theorem Grid.line_getD {g : Grid} {i k : Nat} (hk : k < g.width) :
    (g.line i).getD k Option.none = g.get i k :=
  lgetD_map_range _ _ _ _ hk

theorem Grid.column_getD {g : Grid} {j k : Nat} (hk : k < g.height) :
    (g.column j).getD k Option.none = g.get k j :=
  lgetD_map_range _ _ _ _ hk

theorem noneIdx_mem {lane : List (Option Cell)} {k : Nat} :
    k ∈ noneIdx lane ↔ k < lane.length ∧ (lane.getD k Option.none).isNone := by
  simp [noneIdx, List.mem_filter, List.mem_range]

theorem tm_round_mem {lane : List (Option Cell)} {gnum : Nat} {k : Nat}
    {v : Option Cell} (h : (k, v) ∈ tm_round lane gnum) :
    k < lane.length ∧ lane.getD k Option.none = Option.none ∧ v.isSome := by
  unfold tm_round at h
  cases halm : almostOf lane gnum with
  | none => rw [halm] at h; exact absurd h (List.not_mem_nil _)
  | some c =>
    rw [halm] at h
    rcases List.mem_filterMap.1 h with ⟨k2, hk2, heq⟩
    by_cases ht : trialOk gnum lane c k2
    · rw [if_pos ht] at heq
      exact Option.noConfusion heq
    · rw [if_neg ht] at heq
      obtain ⟨rfl, rfl⟩ : k2 = k ∧ (Option.some (Cell.not c) : Option Cell) = v := by
        refine ⟨congrArg Prod.fst (Option.some.inj heq), congrArg Prod.snd (Option.some.inj heq)⟩
      have h2 := noneIdx_mem.1 hk2
      refine ⟨h2.1, ?_, by simp⟩
      cases hg : lane.getD k2 Option.none
      · rfl
      · rw [hg] at h2; exact absurd h2.2 (by simp)

theorem tm_mem {lane : List (Option Cell)} {k : Nat} {v : Option Cell}
    (h : (k, v) ∈ try_missings lane) :
    k < lane.length ∧ lane.getD k Option.none = Option.none ∧ v.isSome := by
  rcases List.mem_append.1 h with h1 | h1
  · exact tm_round_mem h1
  · exact tm_round_mem h1

theorem fh_apply_row_inv {g0 : Grid} (gs : Grid) {i : Nat} (hi : i < g0.height)
    (hdet0 : ∀ a b c, g0.get a b = Option.some c → gs.get a b = Option.some c) :
    ∀ (upds : List (Nat × Option Cell)) (acc : Grid × Bool), StepInv g0 acc →
      (acc.2 = false → acc.1 = gs) →
      (∀ p ∈ upds, p.1 < g0.width ∧ gs.get i p.1 = Option.none ∧ p.2.isSome) →
      StepInv g0 (fh_apply_row i acc upds)
  | [], _, hInv, _, _ => hInv
  | p :: rest, acc, hInv, hflag, hupds => by
    obtain ⟨hpw, hpnone, hpsome⟩ := hupds p (List.mem_cons_self p rest)
    have hstep : StepInv g0 ((acc.1.set i p.1 p.2).1, acc.2 || (acc.1.set i p.1 p.2).2) := by
      cases hc : acc.1.get i p.1 with
      | none =>
        obtain ⟨c, hc2⟩ := Option.isSome_iff_exists.1 hpsome
        rw [hc2]
        exact StepInv.fill_some hInv hi hpw hc
      | some w =>
        have hflagnone : acc.2 = false → acc.1.get i p.1 = Option.none := by
          intro hf
          rw [hflag hf]
          exact hpnone
        have hg0none : g0.get i p.1 = Option.none := by
          cases hg : g0.get i p.1 with
          | none => rfl
          | some c =>
            have h3 := hdet0 i p.1 c hg
            rw [h3] at hpnone
            exact Option.noConfusion hpnone
        exact StepInv.fill_keep hInv hi hpw hc hpsome hflagnone hg0none
    have hch : (acc.1.set i p.1 p.2).2 = false → acc.1.get i p.1 = p.2 := by
      intro hf
      by_contra hne
      have h2 : (acc.1.set i p.1 p.2).2 = true := Grid.set_changed.2 hne
      rw [hf] at h2
      exact Bool.noConfusion h2
    have hflag2 : (acc.2 || (acc.1.set i p.1 p.2).2) = false →
        (acc.1.set i p.1 p.2).1 = gs := by
      intro hf
      simp only [Bool.or_eq_false_iff] at hf
      have hid := Grid.set_id hInv.1 (i := i) (j := p.1)
        (by rw [hInv.2.2.1]; exact hi) (by rw [hInv.2.1]; exact hpw) (hch hf.2)
      rw [hid]
      exact hflag hf.1
    show StepInv g0 (fh_apply_row i
      ((acc.1.set i p.1 p.2).1, acc.2 || (acc.1.set i p.1 p.2).2) rest)
    exact fh_apply_row_inv gs hi hdet0 rest _ hstep hflag2
      (fun q hq => hupds q (List.mem_cons_of_mem p hq))

theorem fh_apply_col_inv {g0 : Grid} (gs : Grid) {j : Nat} (hj : j < g0.width)
    (hdet0 : ∀ a b c, g0.get a b = Option.some c → gs.get a b = Option.some c) :
    ∀ (upds : List (Nat × Option Cell)) (acc : Grid × Bool), StepInv g0 acc →
      (acc.2 = false → acc.1 = gs) →
      (∀ p ∈ upds, p.1 < g0.height ∧ gs.get p.1 j = Option.none ∧ p.2.isSome) →
      StepInv g0 (fh_apply_col j acc upds)
  | [], _, hInv, _, _ => hInv
  | p :: rest, acc, hInv, hflag, hupds => by
    obtain ⟨hph, hpnone, hpsome⟩ := hupds p (List.mem_cons_self p rest)
    have hstep : StepInv g0 ((acc.1.set p.1 j p.2).1, acc.2 || (acc.1.set p.1 j p.2).2) := by
      cases hc : acc.1.get p.1 j with
      | none =>
        obtain ⟨c, hc2⟩ := Option.isSome_iff_exists.1 hpsome
        rw [hc2]
        exact StepInv.fill_some hInv hph hj hc
      | some w =>
        have hflagnone : acc.2 = false → acc.1.get p.1 j = Option.none := by
          intro hf
          rw [hflag hf]
          exact hpnone
        have hg0none : g0.get p.1 j = Option.none := by
          cases hg : g0.get p.1 j with
          | none => rfl
          | some c =>
            have h3 := hdet0 p.1 j c hg
            rw [h3] at hpnone
            exact Option.noConfusion hpnone
        exact StepInv.fill_keep hInv hph hj hc hpsome hflagnone hg0none
    have hch : (acc.1.set p.1 j p.2).2 = false → acc.1.get p.1 j = p.2 := by
      intro hf
      by_contra hne
      have h2 : (acc.1.set p.1 j p.2).2 = true := Grid.set_changed.2 hne
      rw [hf] at h2
      exact Bool.noConfusion h2
    have hflag2 : (acc.2 || (acc.1.set p.1 j p.2).2) = false →
        (acc.1.set p.1 j p.2).1 = gs := by
      intro hf
      simp only [Bool.or_eq_false_iff] at hf
      have hid := Grid.set_id hInv.1 (i := p.1) (j := j)
        (by rw [hInv.2.2.1]; exact hph) (by rw [hInv.2.1]; exact hj) (hch hf.2)
      rw [hid]
      exact hflag hf.1
    show StepInv g0 (fh_apply_col j
      ((acc.1.set p.1 j p.2).1, acc.2 || (acc.1.set p.1 j p.2).2) rest)
    exact fh_apply_col_inv gs hj hdet0 rest _ hstep hflag2
      (fun q hq => hupds q (List.mem_cons_of_mem p hq))

theorem fh_row_inv {g0 : Grid} {acc : Grid × Bool} (hInv : StepInv g0 acc)
    {i : Nat} (hi : i < g0.height) : StepInv g0 (fh_row acc i) := by
  unfold fh_row
  apply fh_apply_row_inv acc.1 hi hInv.2.2.2.2.2.2 _ acc hInv (fun _ => rfl)
  intro p hp
  have h := tm_mem hp
  rw [Grid.line_length] at h
  have hpw : p.1 < g0.width := by rw [← hInv.2.1]; exact h.1
  refine ⟨hpw, ?_, h.2.2⟩
  rw [← Grid.line_getD (by rw [hInv.2.1]; exact hpw)]
  exact h.2.1

theorem fh_col_inv {g0 : Grid} {acc : Grid × Bool} (hInv : StepInv g0 acc)
    {j : Nat} (hj : j < g0.width) : StepInv g0 (fh_col acc j) := by
  unfold fh_col
  apply fh_apply_col_inv acc.1 hj hInv.2.2.2.2.2.2 _ acc hInv (fun _ => rfl)
  intro p hp
  have h := tm_mem hp
  rw [Grid.column_length] at h
  have hph : p.1 < g0.height := by rw [← hInv.2.2.1]; exact h.1
  refine ⟨hph, ?_, h.2.2⟩
  rw [← Grid.column_getD (by rw [hInv.2.2.1]; exact hph)]
  exact h.2.1

theorem fill_heuristics_inv {g : Grid} (hW : g.WF) :
    StepInv g (fill_heuristics g) := by
  unfold fill_heuristics
  have h1 : StepInv g ((List.range g.height).foldl fh_row (g, false)) := by
    apply lfoldl_inv
    · exact StepInv.start hW
    · intro acc i hi hInv
      exact fh_row_inv hInv (List.mem_range.1 hi)
  apply lfoldl_inv
  · exact h1
  · intro acc j hj hInv
    have hj2 : j < g.width := by
      rw [← h1.2.1]
      exact List.mem_range.1 hj
    exact fh_col_inv hInv hj2

/-! ### Loop fixed points: invariants and fuel stability -/

theorem constraintsFix_inv :
    ∀ (f : Nat) {g : Grid}, g.WF →
      (constraintsFix f g).WF ∧ (constraintsFix f g).width = g.width ∧
      (constraintsFix f g).height = g.height ∧
      (constraintsFix f g).emptyCount ≤ g.emptyCount ∧
      (∀ a b c, g.get a b = Option.some c →
        (constraintsFix f g).get a b = Option.some c)
  | 0, g, hW => ⟨hW, rfl, rfl, Nat.le_refl _, fun _ _ _ h => h⟩
  | Nat.succ f, g, hW => by
    have hinv := fill_constraints_inv hW
    simp only [constraintsFix]
    by_cases hr : (fill_constraints g).2
    · rw [if_pos hr]
      have ih := constraintsFix_inv f hinv.1
      refine ⟨ih.1, ?_, ?_, ?_, ?_⟩
      · rw [ih.2.1, hinv.2.1]
      · rw [ih.2.2.1, hinv.2.2.1]
      · exact Nat.le_trans ih.2.2.2.1 hinv.2.2.2.1
      · intro a b c h
        exact ih.2.2.2.2 a b c (hinv.2.2.2.2.2.2 a b c h)
    · rw [if_neg hr]
      exact ⟨hinv.1, hinv.2.1, hinv.2.2.1, hinv.2.2.2.1, hinv.2.2.2.2.2.2⟩

theorem constraintsFix_stable :
    ∀ (f : Nat) {g : Grid}, g.WF → ∀ (f2 : Nat),
      g.emptyCount < f → g.emptyCount < f2 →
      constraintsFix f g = constraintsFix f2 g
  | 0, _, _, _, h1, _ => absurd h1 (Nat.not_lt_zero _)
  | Nat.succ f, g, hW, 0, _, h2 => absurd h2 (Nat.not_lt_zero _)
  | Nat.succ f, g, hW, Nat.succ m, h1, h2 => by
    have hinv := fill_constraints_inv hW
    simp only [constraintsFix]
    by_cases hr : (fill_constraints g).2
    · rw [if_pos hr, if_pos hr]
      have hlt := hinv.2.2.2.2.1 hr
      exact constraintsFix_stable f hinv.1 m (by omega) (by omega)
    · rw [if_neg hr, if_neg hr]

theorem constraintsRun_inv {g : Grid} (hW : g.WF) :
    (constraintsRun g).WF ∧ (constraintsRun g).width = g.width ∧
    (constraintsRun g).height = g.height ∧
    (constraintsRun g).emptyCount ≤ g.emptyCount ∧
    (∀ a b c, g.get a b = Option.some c →
      (constraintsRun g).get a b = Option.some c) :=
  constraintsFix_inv _ hW

theorem outerFix_inv :
    ∀ (f : Nat) {g : Grid}, g.WF →
      (outerFix f g).WF ∧ (outerFix f g).width = g.width ∧
      (outerFix f g).height = g.height ∧
      (outerFix f g).emptyCount ≤ g.emptyCount ∧
      (∀ a b c, g.get a b = Option.some c →
        (outerFix f g).get a b = Option.some c)
  | 0, g, hW => ⟨hW, rfl, rfl, Nat.le_refl _, fun _ _ _ h => h⟩
  | Nat.succ f, g, hW => by
    have hc := constraintsRun_inv hW
    have hh := fill_heuristics_inv hc.1
    simp only [outerFix]
    by_cases hr : (fill_heuristics (constraintsRun g)).2
    · rw [if_pos hr]
      have ih := outerFix_inv f hh.1
      refine ⟨ih.1, ?_, ?_, ?_, ?_⟩
      · rw [ih.2.1, hh.2.1, hc.2.1]
      · rw [ih.2.2.1, hh.2.2.1, hc.2.2.1]
      · exact Nat.le_trans ih.2.2.2.1 (Nat.le_trans hh.2.2.2.1 hc.2.2.2.1)
      · intro a b c h
        exact ih.2.2.2.2 a b c (hh.2.2.2.2.2.2 a b c (hc.2.2.2.2 a b c h))
    · rw [if_neg hr]
      exact ⟨hh.1, by rw [hh.2.1, hc.2.1], by rw [hh.2.2.1, hc.2.2.1],
        Nat.le_trans hh.2.2.2.1 hc.2.2.2.1,
        fun a b c h => hh.2.2.2.2.2.2 a b c (hc.2.2.2.2 a b c h)⟩

theorem outerFix_stable :
    ∀ (f : Nat) {g : Grid}, g.WF → ∀ (f2 : Nat),
      g.emptyCount < f → g.emptyCount < f2 →
      outerFix f g = outerFix f2 g
  | 0, _, _, _, h1, _ => absurd h1 (Nat.not_lt_zero _)
  | Nat.succ f, g, hW, 0, _, h2 => absurd h2 (Nat.not_lt_zero _)
  | Nat.succ f, g, hW, Nat.succ m, h1, h2 => by
    have hc := constraintsRun_inv hW
    have hh := fill_heuristics_inv hc.1
    simp only [outerFix]
    by_cases hr : (fill_heuristics (constraintsRun g)).2
    · rw [if_pos hr, if_pos hr]
      have hlt : (fill_heuristics (constraintsRun g)).1.emptyCount <
          (constraintsRun g).emptyCount := hh.2.2.2.2.1 hr
      have hle := hc.2.2.2.1
      exact outerFix_stable f hh.1 m (by omega) (by omega)
    · rw [if_neg hr, if_neg hr]

theorem outerRun_inv {g : Grid} (hW : g.WF) :
    (outerRun g).WF ∧ (outerRun g).width = g.width ∧
    (outerRun g).height = g.height ∧
    (outerRun g).emptyCount ≤ g.emptyCount ∧
    (∀ a b c, g.get a b = Option.some c →
      (outerRun g).get a b = Option.some c) :=
  outerFix_inv _ hW

theorem get_empty_some {g : Grid} {i j : Nat}
    (h : g.get_empty = Option.some (i, j)) :
    i < g.height ∧ j < g.width ∧ g.get i j = Option.none := by
  unfold Grid.get_empty at h
  rcases List.exists_of_findSome?_eq_some h with ⟨a, ha, hfa⟩
  rcases List.exists_of_findSome?_eq_some hfa with ⟨b, hb, hfb⟩
  by_cases hn : (g.get a b).isNone
  · rw [if_pos hn] at hfb
    obtain ⟨rfl, rfl⟩ : a = i ∧ b = j := by
      have h2 := Option.some.inj hfb
      exact ⟨congrArg Prod.fst h2, congrArg Prod.snd h2⟩
    refine ⟨List.mem_range.1 ha, List.mem_range.1 hb, ?_⟩
    cases hg : g.get a b
    · rfl
    · rw [hg] at hn; exact absurd hn (by simp)
  · rw [if_neg hn] at hfb
    exact Option.noConfusion hfb

theorem set_empty_decreases {g : Grid} (hW : g.WF) {i j : Nat}
    (hi : i < g.height) (hj : j < g.width) (hn : g.get i j = Option.none)
    (c : Cell) : (g.set i j (Option.some c)).1.emptyCount + 1 = g.emptyCount := by
  have h := Grid.emptyCount_set hW hi hj (Option.some c) (i := i) (j := j)
  rw [hn] at h
  simpa using h

theorem solveAux_stable :
    ∀ (f : Nat) {g : Grid}, g.WF → ∀ (f2 : Nat),
      g.emptyCount < f → g.emptyCount < f2 →
      solveAux f g = solveAux f2 g
  | 0, _, _, _, h1, _ => absurd h1 (Nat.not_lt_zero _)
  | Nat.succ f, g, hW, 0, _, h2 => absurd h2 (Nat.not_lt_zero _)
  | Nat.succ f, g, hW, Nat.succ m, h1, h2 => by
    have ho := outerRun_inv hW
    simp only [solveAux]
    by_cases hv : (outerRun g).is_valid
    · rw [if_pos hv, if_pos hv]
      cases hge : (outerRun g).get_empty with
      | none => rfl
      | some ij =>
        obtain ⟨i, j⟩ := ij
        have hij := get_empty_some hge
        have hset : ∀ c : Cell,
            ((outerRun g).set i j (Option.some c)).1.emptyCount + 1 =
              (outerRun g).emptyCount :=
          fun c => set_empty_decreases ho.1 hij.1 hij.2.1 hij.2.2 c
        have hWs : ∀ c : Cell, ((outerRun g).set i j (Option.some c)).1.WF :=
          fun c => Grid.set_WF ho.1 hij.1 _
        have hle := ho.2.2.2.1
        have hA := solveAux_stable f (hWs Cell.none) m
          (by have := hset Cell.none; omega) (by have := hset Cell.none; omega)
        have hB := solveAux_stable f (hWs Cell.zero) m
          (by have := hset Cell.zero; omega) (by have := hset Cell.zero; omega)
        have hC := solveAux_stable f (hWs Cell.one) m
          (by have := hset Cell.one; omega) (by have := hset Cell.one; omega)
        dsimp only
        rw [hA, hB, hC]
    · rw [if_neg hv, if_neg hv]

theorem solveAux_eq_solve {g : Grid} (hW : g.WF) {f : Nat}
    (hf : g.emptyCount < f) : solveAux f g = g.solve :=
  solveAux_stable f hW (g.emptyCount + 1) hf (Nat.lt_succ_self _)

theorem parse_ok_valid {lines : List (List Char)} {g : Grid}
    (h : Grid.parse lines = Except.ok g) : g.is_valid = true := by
  unfold Grid.parse at h
  cases hp : parse_lines lines [] 0 with
  | error e => rw [hp] at h; exact Except.noConfusion h
  | ok cw =>
    obtain ⟨cells, width⟩ := cw
    rw [hp] at h
    dsimp only at h
    split_ifs at h with h1 h2 h3
    · obtain rfl := Except.ok.inj h
      exact h3

/-- C3 (amended).  Validity is enforced at parse time and re-checked after
the propagation/heuristic fixed point: a parsed grid is `is_valid`, and a
branch whose fixed-point grid fails `is_valid` aborts with `InvalidGrid`.
(Intermediate grids may fail `is_valid`; see
`c3_propagation_breaks_validity`.) -/
theorem c3_validity_checked_after_fixpoint :
    (∀ (lines : List (List Char)) (g : Grid),
      Grid.parse lines = Except.ok g → g.is_valid = true) ∧
    (∀ g : Grid, (outerRun g).is_valid = false →
      g.solve = Except.error GridError.InvalidGrid) := by
  constructor
  · exact fun lines g h => parse_ok_valid h
  · intro g hv
    unfold Grid.solve
    simp only [solveAux]
    rw [if_neg (by rw [hv]; exact Bool.noConfusion)]

/-- Witness for C3: the parsed empty 4×4 grid is valid, and `cex3` — whose
propagation/heuristic fixed point is invalid — aborts with `InvalidGrid`. -/
theorem c3_validity_checked_after_fixpoint_witness :
    g4.is_valid = true ∧ (outerRun cex3).is_valid = false ∧
    cex3.solve = Except.error GridError.InvalidGrid :=
  ⟨c3_validity_checked_after_fixpoint.1 input4 g4 (by decide), by decide,
    c3_validity_checked_after_fixpoint.2 cex3 (by decide)⟩

/-- C4.  One `fill_constraints` or `fill_heuristics` pass never changes a
determined cell to a different value or back to undetermined, and the
count of determined cells is non-decreasing across either step. -/
theorem c4_steps_preserve_determined (g : Grid) (hW : g.WF) :
    (∀ i j c, g.get i j = Option.some c →
      (fill_constraints g).1.get i j = Option.some c ∧
      (fill_heuristics g).1.get i j = Option.some c) ∧
    g.determinedCount ≤ (fill_constraints g).1.determinedCount ∧
    g.determinedCount ≤ (fill_heuristics g).1.determinedCount := by
  have hc := fill_constraints_inv hW
  have hh := fill_heuristics_inv hW
  refine ⟨fun i j c h => ⟨hc.2.2.2.2.2.2 i j c h, hh.2.2.2.2.2.2 i j c h⟩, ?_, ?_⟩
  · have e1 := Grid.empty_add_determined hW
    have e2 := Grid.empty_add_determined hc.1
    rw [hc.2.1, hc.2.2.1] at e2
    have := hc.2.2.2.1
    omega
  · have e1 := Grid.empty_add_determined hW
    have e2 := Grid.empty_add_determined hh.1
    rw [hh.2.1, hh.2.2.1] at e2
    have := hh.2.2.2.1
    omega

/-- Witness for C4 at the concrete grid `cex3`. -/
theorem c4_steps_preserve_determined_witness :
    cex3.WF ∧ cex3.get 0 0 = Option.some Cell.zero ∧
    (fill_constraints cex3).1.get 0 0 = Option.some Cell.zero ∧
    (fill_heuristics cex3).1.get 0 0 = Option.some Cell.zero ∧
    cex3.determinedCount ≤ (fill_constraints cex3).1.determinedCount :=
  ⟨by decide, by decide,
    ((c4_steps_preserve_determined cex3 (by decide)).1 0 0 Cell.zero (by decide)).1,
    ((c4_steps_preserve_determined cex3 (by decide)).1 0 0 Cell.zero (by decide)).2,
    (c4_steps_preserve_determined cex3 (by decide)).2.1⟩

/-- C8.  The termination measures of `Grid::solve`: a changed propagation
or heuristic pass strictly decreases the number of undetermined cells,
that number is at most `width·height`, the clone of a backtracking branch
has exactly one fewer undetermined cell, and the fuelled solver is stable
for any fuel above the undetermined count — so the loops and the recursion
all terminate within those bounds. -/
theorem c8_termination_measures :
    (∀ g : Grid, g.WF → (fill_constraints g).2 = true →
      (fill_constraints g).1.emptyCount < g.emptyCount) ∧
    (∀ g : Grid, g.WF → (fill_heuristics g).2 = true →
      (fill_heuristics g).1.emptyCount < g.emptyCount) ∧
    (∀ g : Grid, g.WF → g.emptyCount ≤ g.height * g.width) ∧
    (∀ (g : Grid) (i j : Nat), g.WF → g.get_empty = Option.some (i, j) →
      ∀ c : Cell, (g.set i j (Option.some c)).1.emptyCount + 1 = g.emptyCount) ∧
    (∀ (g : Grid) (f : Nat), g.WF → g.emptyCount < f → solveAux f g = g.solve) := by
  refine ⟨?_, ?_, ?_, ?_, ?_⟩
  · exact fun g hW h => (fill_constraints_inv hW).2.2.2.2.1 h
  · exact fun g hW h => (fill_heuristics_inv hW).2.2.2.2.1 h
  · exact fun g hW => Grid.emptyCount_le hW
  · intro g i j hW hge c
    have hij := get_empty_some hge
    exact set_empty_decreases hW hij.1 hij.2.1 hij.2.2 c
  · exact fun g f hW hf => solveAux_eq_solve hW hf

/-- Witness for C8 at concrete grids: `fill_constraints` changes `cex3`
and strictly decreases its undetermined count, the count is bounded by the
area, the branch clone of `g4` has one fewer undetermined cell, and fuel
`20 > 16` already computes `g4.solve`. -/
theorem c8_termination_measures_witness :
    cex3.WF ∧ (fill_constraints cex3).2 = true ∧
    (fill_constraints cex3).1.emptyCount < cex3.emptyCount ∧
    cex3.emptyCount ≤ cex3.height * cex3.width ∧
    g4.get_empty = Option.some (0, 0) ∧
    (g4.set 0 0 (Option.some Cell.zero)).1.emptyCount + 1 = g4.emptyCount ∧
    solveAux 20 g4 = g4.solve :=
  ⟨by decide, by decide,
    c8_termination_measures.1 cex3 (by decide) (by decide),
    c8_termination_measures.2.2.1 cex3 (by decide),
    by decide,
    c8_termination_measures.2.2.2.1 g4 0 0 (by decide) (by decide) Cell.zero,
    c8_termination_measures.2.2.2.2 g4 20 (by decide) (by decide)⟩

/-! ### Parse lemmas -/

theorem parse_lines_append (xs : List (List Char)) :
    ∀ (ys : List (List Char)) (cells : List (List (Option Cell))) (width : Nat),
      parse_lines (xs ++ ys) cells width =
        match parse_lines xs cells width with
        | Except.error e => Except.error e
        | Except.ok (cells2, width2) => parse_lines ys cells2 width2 := by
  induction xs with
  | nil => intro ys cells width; rfl
  | cons l rest ih =>
    intro ys cells width
    show parse_lines (l :: (rest ++ ys)) cells width = _
    simp only [parse_lines]
    cases hl : parse_line l with
    | error e => rfl
    | ok vec =>
      dsimp only
      by_cases h0 : vec.length = 0
      · rw [if_pos h0, if_pos h0]
        exact ih ys cells width
      · rw [if_neg h0, if_neg h0]
        by_cases h1 : cells.length = 0
        · rw [if_pos h1, if_pos h1]
          by_cases h2 : vec.length % 2 ≠ 0
          · rw [if_pos h2, if_pos h2]
          · rw [if_neg h2, if_neg h2]
            exact ih ys (cells ++ [vec]) vec.length
        · rw [if_neg h1, if_neg h1]
          by_cases h3 : vec.length ≠ width
          · rw [if_pos h3, if_pos h3]
          · rw [if_neg h3, if_neg h3]
            exact ih ys (cells ++ [vec]) width

theorem parse_lines_skip_blank {b : List Char} (hb : parse_line b = Except.ok [])
    (ys : List (List Char)) (cells : List (List (Option Cell))) (width : Nat) :
    parse_lines (b :: ys) cells width = parse_lines ys cells width := by
  simp only [parse_lines, hb]
  rfl

theorem parse_lines_all_blank {lines : List (List Char)}
    (h : ∀ l ∈ lines, parse_line l = Except.ok []) :
    ∀ (cells : List (List (Option Cell))) (width : Nat),
      parse_lines lines cells width = Except.ok (cells, width) := by
  induction lines with
  | nil => intro cells width; rfl
  | cons l rest ih =>
    intro cells width
    rw [parse_lines_skip_blank (h l (List.mem_cons_self l rest))]
    exact ih (fun x hx => h x (List.mem_cons_of_mem l hx)) cells width

theorem parse_chars_length :
    ∀ {l : List Char} {v : List (Option Cell)},
      parse_chars l = Except.ok v → v.length = l.length
  | [], v, h => by
    rw [← Except.ok.inj h]
    rfl
  | c :: rest, v, h => by
    unfold parse_chars at h
    cases hc : parse_cell c with
    | error e => rw [hc] at h; exact Except.noConfusion h
    | ok x =>
      rw [hc] at h
      cases hr : parse_chars rest with
      | error e => rw [hr] at h; exact Except.noConfusion h
      | ok vs =>
        rw [hr] at h
        rw [← Except.ok.inj h]
        simp [parse_chars_length hr]

theorem parse_line_blank_iff {l : List Char} :
    parse_line l = Except.ok [] ↔ filterTokens l = [] := by
  constructor
  · intro h
    have := parse_chars_length (l := filterTokens l) h
    simpa using this.symm
  · intro h
    unfold parse_line
    rw [h]
    rfl

theorem parse_of_lines_ok {lines : List (List Char)}
    {cells : List (List (Option Cell))} {w : Nat}
    (h : parse_lines lines [] 0 = Except.ok (cells, w)) :
    Grid.parse lines =
      (if cells.length = 0 then Except.error GridError.EmptyGrid
       else if cells.length % 2 ≠ 0 then Except.error GridError.OddDimension
       else if (Grid.mk cells w cells.length).is_valid
         then Except.ok (Grid.mk cells w cells.length)
         else Except.error GridError.InvalidGrid) := by
  unfold Grid.parse
  rw [h]

theorem parse_of_lines_error {lines : List (List Char)} {e : GridError}
    (h : parse_lines lines [] 0 = Except.error e) :
    Grid.parse lines = Except.error e := by
  unfold Grid.parse
  rw [h]

theorem parse_cell_error {c : Char} {e : GridError}
    (h : parse_cell c = Except.error e) :
    e = GridError.InvalidChar c ∧ c ∉ ['0', '1', '-'] := by
  unfold parse_cell Cell.try_from at h
  by_cases h1 : c = '-'
  · rw [if_pos h1] at h; exact Except.noConfusion h
  · rw [if_neg h1] at h
    by_cases h2 : c = '0'
    · rw [if_pos h2] at h; exact Except.noConfusion h
    · rw [if_neg h2] at h
      by_cases h3 : c = '1'
      · rw [if_pos h3] at h; exact Except.noConfusion h
      · rw [if_neg h3, if_neg h1] at h
        refine ⟨(Except.error.inj h).symm, ?_⟩
        simp [h1, h2, h3]

theorem parse_chars_error :
    ∀ {l : List Char} {e : GridError}, parse_chars l = Except.error e →
      ∃ c ∈ l, parse_cell c = Except.error e
  | [], e, h => Except.noConfusion h
  | c :: rest, e, h => by
    unfold parse_chars at h
    cases hc : parse_cell c with
    | error e2 =>
      rw [hc] at h
      obtain rfl := Except.error.inj h
      exact ⟨c, List.mem_cons_self c rest, hc⟩
    | ok v =>
      rw [hc] at h
      cases hr : parse_chars rest with
      | error e2 =>
        rw [hr] at h
        obtain rfl := Except.error.inj h
        obtain ⟨c2, hc2, he2⟩ := parse_chars_error hr
        exact ⟨c2, List.mem_cons_of_mem c hc2, he2⟩
      | ok vs => rw [hr] at h; exact Except.noConfusion h

/-- C7.  The error conditions of `Grid::parse`: `EmptyGrid` when the input
yields no rows; `OddDimension` when the first non-empty row's width is odd
or the final row count is odd; `WidthMismatch` when a later row's length
differs from the first row's; a line error is an `InvalidChar` carrying an
offending token outside `{0, 1, -}` and is propagated; and otherwise parse
succeeds if and only if the built grid passes `is_valid`. -/
theorem c7_parse_error_conditions :
    (∀ (lines : List (List Char)) (w : Nat),
      parse_lines lines [] 0 = Except.ok ([], w) →
      Grid.parse lines = Except.error GridError.EmptyGrid) ∧
    (∀ (pre : List (List Char)) (l : List Char) (post : List (List Char))
       (vec : List (Option Cell)),
      parse_lines pre [] 0 = Except.ok ([], 0) → parse_line l = Except.ok vec →
      vec ≠ [] → vec.length % 2 = 1 →
      Grid.parse (pre ++ l :: post) = Except.error GridError.OddDimension) ∧
    (∀ (pre : List (List Char)) (l : List Char) (post : List (List Char))
       (cells : List (List (Option Cell))) (w : Nat) (vec : List (Option Cell)),
      parse_lines pre [] 0 = Except.ok (cells, w) → cells ≠ [] →
      parse_line l = Except.ok vec → vec ≠ [] → vec.length ≠ w →
      Grid.parse (pre ++ l :: post) = Except.error GridError.WidthMismatch) ∧
    (∀ (lines : List (List Char)) (cells : List (List (Option Cell))) (w : Nat),
      parse_lines lines [] 0 = Except.ok (cells, w) →
      cells ≠ [] → cells.length % 2 = 1 →
      Grid.parse lines = Except.error GridError.OddDimension) ∧
    (∀ (pre : List (List Char)) (l : List Char) (post : List (List Char))
       (cells : List (List (Option Cell))) (w : Nat) (e : GridError),
      parse_lines pre [] 0 = Except.ok (cells, w) → parse_line l = Except.error e →
      Grid.parse (pre ++ l :: post) = Except.error e) ∧
    (∀ (l : List Char) (e : GridError), parse_line l = Except.error e →
      ∃ c, e = GridError.InvalidChar c ∧ c ∈ filterTokens l ∧ c ∉ ['0', '1', '-']) ∧
    (∀ (lines : List (List Char)) (cells : List (List (Option Cell))) (w : Nat),
      parse_lines lines [] 0 = Except.ok (cells, w) →
      cells ≠ [] → cells.length % 2 = 0 →
      Grid.parse lines =
        (if (Grid.mk cells w cells.length).is_valid
          then Except.ok (Grid.mk cells w cells.length)
          else Except.error GridError.InvalidGrid)) := by
  refine ⟨?_, ?_, ?_, ?_, ?_, ?_, ?_⟩
  · intro lines w h
    rw [parse_of_lines_ok h]
    rfl
  · intro pre l post vec hpre hl hne hodd
    apply parse_of_lines_error
    rw [parse_lines_append, hpre]
    dsimp only
    simp only [parse_lines]
    rw [hl]
    dsimp only
    rw [if_neg (by simpa using hne)]
    simp [hodd]
  · intro pre l post cells w vec hpre hcne hl hne hw
    apply parse_of_lines_error
    rw [parse_lines_append, hpre]
    dsimp only
    simp only [parse_lines]
    rw [hl]
    dsimp only
    rw [if_neg (by simpa using hne), if_neg (by simpa using hcne)]
    simp [hw]
  · intro lines cells w h hne hodd
    rw [parse_of_lines_ok h]
    rw [if_neg (by simpa using hne), if_pos (by omega)]
  · intro pre l post cells w e hpre hl
    apply parse_of_lines_error
    rw [parse_lines_append, hpre]
    dsimp only
    simp only [parse_lines]
    rw [hl]
  · intro l e h
    obtain ⟨c, hc, he⟩ := parse_chars_error h
    have h2 := parse_cell_error he
    exact ⟨c, h2.1, hc, h2.2⟩
  · intro lines cells w h hne heven
    rw [parse_of_lines_ok h]
    rw [if_neg (by simpa using hne), if_neg (by omega)]

/-- Witness for C7: each error clause triggered on a small concrete input,
and the success clause on a valid 2×2 grid. -/
theorem c7_parse_error_conditions_witness :
    Grid.parse [['#']] = Except.error GridError.EmptyGrid ∧
    Grid.parse [['0', ' ', '1', ' ', '0']] = Except.error GridError.OddDimension ∧
    Grid.parse [['0', ' ', '1'], ['0', ' ', '1', ' ', '0', ' ', '1']] =
      Except.error GridError.WidthMismatch ∧
    Grid.parse [['0', ' ', '1'], ['1', ' ', '0'], ['0', ' ', '1']] =
      Except.error GridError.OddDimension ∧
    Grid.parse [['0', ' ', 'x']] = Except.error (GridError.InvalidChar 'x') ∧
    (∃ c, GridError.InvalidChar 'x' = GridError.InvalidChar c ∧
      c ∈ filterTokens ['0', ' ', 'x'] ∧ c ∉ ['0', '1', '-']) ∧
    Grid.parse [['0', ' ', '1'], ['1', ' ', '0']] =
      (if (Grid.mk [[Option.some Cell.zero, Option.some Cell.one],
          [Option.some Cell.one, Option.some Cell.zero]] 2 2).is_valid
        then Except.ok (Grid.mk [[Option.some Cell.zero, Option.some Cell.one],
          [Option.some Cell.one, Option.some Cell.zero]] 2 2)
        else Except.error GridError.InvalidGrid) :=
  ⟨c7_parse_error_conditions.1 [['#']] 0 (by decide),
   c7_parse_error_conditions.2.1 [] ['0', ' ', '1', ' ', '0'] []
     [Option.some Cell.zero, Option.some Cell.one, Option.some Cell.zero]
     (by decide) (by decide) (by decide) (by decide),
   c7_parse_error_conditions.2.2.1 [['0', ' ', '1']] ['0', ' ', '1', ' ', '0', ' ', '1'] []
     [[Option.some Cell.zero, Option.some Cell.one]] 2
     [Option.some Cell.zero, Option.some Cell.one, Option.some Cell.zero, Option.some Cell.one]
     (by decide) (by decide) (by decide) (by decide) (by decide),
   c7_parse_error_conditions.2.2.2.1 [['0', ' ', '1'], ['1', ' ', '0'], ['0', ' ', '1']]
     [[Option.some Cell.zero, Option.some Cell.one], [Option.some Cell.one, Option.some Cell.zero],
      [Option.some Cell.zero, Option.some Cell.one]] 2
     (by decide) (by decide) (by decide),
   c7_parse_error_conditions.2.2.2.2.1 [] ['0', ' ', 'x'] [] [] 0
     (GridError.InvalidChar 'x') (by decide) (by decide),
   c7_parse_error_conditions.2.2.2.2.2.1 ['0', ' ', 'x'] (GridError.InvalidChar 'x') (by decide),
   c7_parse_error_conditions.2.2.2.2.2.2 [['0', ' ', '1'], ['1', ' ', '0']]
     [[Option.some Cell.zero, Option.some Cell.one], [Option.some Cell.one, Option.some Cell.zero]] 2
     (by decide) (by decide) (by decide)⟩

/-- C10.  A line that is empty after stripping a `#` comment and all
whitespace is ignored by `Grid::parse`: it contributes no row (so it
changes nothing about the parse of the remaining lines, in particular the
height, and can never trigger `WidthMismatch`), and an input consisting
only of such lines fails with `EmptyGrid`. -/
theorem c10_blank_lines_ignored :
    (∀ l : List Char, parse_line l = Except.ok [] ↔ filterTokens l = []) ∧
    (∀ b : List Char, parse_line b = Except.ok [] →
      ∀ (xs ys : List (List Char)),
        Grid.parse (xs ++ b :: ys) = Grid.parse (xs ++ ys)) ∧
    (∀ lines : List (List Char), (∀ l ∈ lines, parse_line l = Except.ok []) →
      Grid.parse lines = Except.error GridError.EmptyGrid) := by
  refine ⟨fun l => parse_line_blank_iff, ?_, ?_⟩
  · intro b hb xs ys
    have h : parse_lines (xs ++ b :: ys) [] 0 = parse_lines (xs ++ ys) [] 0 := by
      rw [parse_lines_append, parse_lines_append]
      cases hx : parse_lines xs [] 0 with
      | error e => rfl
      | ok cw =>
        obtain ⟨cells, width⟩ := cw
        dsimp only
        exact parse_lines_skip_blank hb ys cells width
    unfold Grid.parse
    rw [h]
  · intro lines h
    have h2 := parse_lines_all_blank h [] 0
    rw [parse_of_lines_ok h2]
    rfl

/-- Witness for C10: a comment line and a whitespace line are ignored
between two real rows, and a comment-only input is `EmptyGrid`. -/
theorem c10_blank_lines_ignored_witness :
    (parse_line ['#', ' ', 'x'] = Except.ok [] ↔ filterTokens ['#', ' ', 'x'] = []) ∧
    Grid.parse [['0', ' ', '1'], ['#', ' ', 'x'], ['1', ' ', '0']] =
      Grid.parse [['0', ' ', '1'], ['1', ' ', '0']] ∧
    Grid.parse [['#', ' ', 'x'], [' ', ' ']] = Except.error GridError.EmptyGrid :=
  ⟨c10_blank_lines_ignored.1 ['#', ' ', 'x'],
   c10_blank_lines_ignored.2.1 ['#', ' ', 'x'] (by decide)
     [['0', ' ', '1']] [['1', ' ', '0']],
   c10_blank_lines_ignored.2.2 [['#', ' ', 'x'], [' ', ' ']] (by decide)⟩

/-! ### Round-trip lemmas -/

theorem ltakeWhile_all {α : Type} (p : α → Bool) :
    ∀ (l : List α), (∀ c ∈ l, p c) → l.takeWhile p = l
  | [], _ => rfl
  | a :: t, h => by
    rw [List.takeWhile_cons, if_pos (h a (List.mem_cons_self a t))]
    rw [ltakeWhile_all p t (fun c hc => h c (List.mem_cons_of_mem a hc))]

theorem mem_renderRow :
    ∀ (row : List (Option Cell)) (ch : Char), ch ∈ renderRow row →
      ch = ' ' ∨ ∃ c ∈ row, ch = cellChar c
  | [], ch, h => absurd h (List.not_mem_nil ch)
  | c :: rest, ch, h => by
    rw [renderRow] at h
    rcases List.mem_cons.1 h with h1 | h1
    · exact Or.inr ⟨c, List.mem_cons_self c rest, h1⟩
    · clear h
      induction rest with
      | nil => exact absurd h1 (List.not_mem_nil ch)
      | cons d t ih =>
        simp only [List.foldr_cons] at h1
        rcases List.mem_cons.1 h1 with h2 | h2
        · exact Or.inl h2
        · rcases List.mem_cons.1 h2 with h3 | h3
          · exact Or.inr ⟨d, by simp, h3⟩
          · rcases ih h3 with h4 | ⟨e, he, hce⟩
            · exact Or.inl h4
            · refine Or.inr ⟨e, ?_, hce⟩
              rcases List.mem_cons.1 he with h5 | h5
              · simp [h5]
              · simp [List.mem_cons_of_mem, h5]

theorem cellChar_not_ws : ∀ c : Option Cell, (cellChar c).isWhitespace = false := by
  intro c
  rcases c with _ | c
  · decide
  · rcases c <;> decide

theorem cellChar_not_hash : ∀ c : Option Cell, cellChar c ≠ '#' := by
  intro c
  rcases c with _ | c
  · decide
  · rcases c <;> decide

theorem renderRow_foldr_filter :
    ∀ (rest : List (Option Cell)),
      (rest.foldr (fun x acc => ' ' :: cellChar x :: acc) []).filter
        (fun c => !c.isWhitespace) = rest.map cellChar
  | [] => rfl
  | d :: t => by
    simp only [List.foldr_cons, List.filter_cons, List.map_cons]
    rw [renderRow_foldr_filter t]
    norm_num [cellChar_not_ws d, (by decide : ' '.isWhitespace = true)]

theorem filterTokens_renderRow (row : List (Option Cell)) :
    filterTokens (renderRow row) = row.map cellChar := by
  unfold filterTokens
  rw [ltakeWhile_all]
  · cases row with
    | nil => rfl
    | cons c rest =>
      rw [renderRow]
      simp only [List.filter_cons, List.map_cons]
      rw [renderRow_foldr_filter rest]
      norm_num [cellChar_not_ws c]
  · intro ch hch
    rcases mem_renderRow _ ch hch with h | ⟨c, _, rfl⟩
    · rw [h]; decide
    · simp [cellChar_not_hash c]

theorem parse_chars_map_cellChar :
    ∀ (row : List (Option Cell)),
      (∀ c ∈ row, c = Option.some Cell.zero ∨ c = Option.some Cell.one) →
      parse_chars (row.map cellChar) = Except.ok row
  | [], _ => rfl
  | c :: rest, h => by
    have hc := h c (List.mem_cons_self c rest)
    have ih := parse_chars_map_cellChar rest
      (fun x hx => h x (List.mem_cons_of_mem c hx))
    rcases hc with rfl | rfl <;>
      simp [parse_chars, parse_cell, cellChar, Cell.try_from, Except.map, ih]

theorem parse_line_renderRow (row : List (Option Cell))
    (h01 : ∀ c ∈ row, c = Option.some Cell.zero ∨ c = Option.some Cell.one) :
    parse_line (renderRow row) = Except.ok row := by
  unfold parse_line
  rw [filterTokens_renderRow]
  exact parse_chars_map_cellChar row h01

theorem parse_lines_render_rest {w : Nat} (hw : w ≠ 0) :
    ∀ (rs : List (List (Option Cell))) (cells : List (List (Option Cell))),
      cells ≠ [] →
      (∀ r ∈ rs, r.length = w ∧
        ∀ c ∈ r, c = Option.some Cell.zero ∨ c = Option.some Cell.one) →
      parse_lines (rs.map renderRow) cells w = Except.ok (cells ++ rs, w)
  | [], cells, _, _ => by simp [parse_lines]
  | r :: rest, cells, hcne, hrs => by
    obtain ⟨hrlen, hr01⟩ := hrs r (List.mem_cons_self r rest)
    simp only [List.map_cons, parse_lines, parse_line_renderRow r hr01]
    rw [if_neg (by rw [hrlen]; exact hw),
      if_neg (by simpa using hcne), if_neg (by rw [hrlen]; simp)]
    rw [parse_lines_render_rest hw rest (cells ++ [r]) (by simp)
      (fun x hx => hrs x (List.mem_cons_of_mem r hx))]
    simp

theorem parse_lines_render {w : Nat} (hw : w ≠ 0) (hweven : w % 2 = 0)
    (r0 : List (Option Cell)) (rs : List (List (Option Cell)))
    (hall : ∀ r ∈ r0 :: rs, r.length = w ∧
      ∀ c ∈ r, c = Option.some Cell.zero ∨ c = Option.some Cell.one) :
    parse_lines ((r0 :: rs).map renderRow) [] 0 = Except.ok (r0 :: rs, w) := by
  obtain ⟨hrlen, hr01⟩ := hall r0 (List.mem_cons_self r0 rs)
  simp only [List.map_cons, parse_lines, parse_line_renderRow r0 hr01]
  rw [if_neg (by rw [hrlen]; exact hw), if_pos List.length_nil,
    if_neg (by rw [hrlen]; simpa using hweven)]
  rw [hrlen]
  show parse_lines (List.map renderRow rs) [r0] w = Except.ok (r0 :: rs, w)
  rw [parse_lines_render_rest hw rs [r0] (by simp)
    (fun x hx => hall x (List.mem_cons_of_mem r0 hx))]
  simp

theorem Grid.line_eq_row {g : Grid} (hW : g.WF) {i : Nat} (hi : i < g.height) :
    g.line i = g.cells.getD i [] := by
  have hlen : (g.cells.getD i []).length = g.width := Grid.rowlen hW hi
  unfold Grid.line Grid.get
  rw [← hlen]
  exact lmap_range_getD Option.none (g.cells.getD i [])

theorem Grid.render_eq_map {g : Grid} (hW : g.WF) :
    g.render = g.cells.map renderRow := by
  unfold Grid.render
  have h1 : (List.range g.height).map (fun i => renderRow (g.line i)) =
      (List.range g.height).map (fun i => renderRow (g.cells.getD i [])) := by
    apply List.map_congr_left
    intro i hi
    rw [Grid.line_eq_row hW (List.mem_range.1 hi)]
  rw [h1]
  rw [show (fun i => renderRow (g.cells.getD i [])) =
    (renderRow ∘ fun i => g.cells.getD i []) from rfl]
  rw [← List.map_map]
  rw [← hW.1, lmap_range_getD]

theorem lgetD_mem {α : Type} {l : List α} {i : Nat} (d : α) (h : i < l.length) :
    l.getD i d ∈ l := by
  rw [List.getD_eq_getElem?_getD, List.getElem?_eq_getElem h]
  exact List.getElem_mem h

theorem is_valid_line_check {g : Grid} (hv : g.is_valid = true) {i : Nat}
    (hi : i < g.height) : check_lane (g.line i) = true := by
  unfold Grid.is_valid at hv
  simp only [Bool.and_eq_true, List.all_eq_true] at hv
  exact (hv.1 i (List.mem_range.2 hi)).1

theorem is_valid_column_check {g : Grid} (hv : g.is_valid = true) {j : Nat}
    (hj : j < g.width) : check_lane (g.column j) = true := by
  unfold Grid.is_valid at hv
  simp only [Bool.and_eq_true, List.all_eq_true] at hv
  exact (hv.2 j (List.mem_range.2 hj)).1

theorem check_lane_count_le {lane : List (Option Cell)}
    (h : check_lane lane = true) (c : Cell) :
    countVal lane c ≤ lane.length / 2 := by
  unfold check_lane at h
  simp only [Bool.and_eq_true, List.all_eq_true, decide_eq_true_eq] at h
  exact h.2 c (by rcases c <;> simp [Cell.iter])

theorem all01_row {g : Grid} (h01 : all01 g = true) {row : List (Option Cell)}
    (hrow : row ∈ g.cells) :
    ∀ c ∈ row, c = Option.some Cell.zero ∨ c = Option.some Cell.one := by
  unfold all01 at h01
  simp only [List.all_eq_true, decide_eq_true_eq] at h01
  exact h01 row hrow

theorem all01_line {g : Grid} (hW : g.WF) (h01 : all01 g = true) {i : Nat}
    (hi : i < g.height) :
    ∀ c ∈ g.line i, c = Option.some Cell.zero ∨ c = Option.some Cell.one := by
  rw [Grid.line_eq_row hW hi]
  exact all01_row h01 (lgetD_mem [] (by rw [hW.1]; exact hi))

theorem all01_column {g : Grid} (hW : g.WF) (h01 : all01 g = true) {j : Nat}
    (hj : j < g.width) :
    ∀ c ∈ g.column j, c = Option.some Cell.zero ∨ c = Option.some Cell.one := by
  intro c hc
  unfold Grid.column at hc
  rcases List.mem_map.1 hc with ⟨i, hi, rfl⟩
  have hi2 : i < g.height := List.mem_range.1 hi
  have hrow : g.cells.getD i [] ∈ g.cells := lgetD_mem [] (by rw [hW.1]; exact hi2)
  have hcell : g.get i j ∈ g.cells.getD i [] := by
    unfold Grid.get
    exact lgetD_mem Option.none (by rw [Grid.rowlen hW hi2]; exact hj)
  exact all01_row h01 hrow _ hcell

theorem count_split_01 :
    ∀ (lane : List (Option Cell)),
      (∀ c ∈ lane, c = Option.some Cell.zero ∨ c = Option.some Cell.one) →
      countVal lane Cell.zero + countVal lane Cell.one = lane.length
  | [], _ => rfl
  | c :: rest, h => by
    have ih := count_split_01 rest (fun x hx => h x (List.mem_cons_of_mem c hx))
    rcases h c (List.mem_cons_self c rest) with rfl | rfl <;>
      simp [countVal, List.countP_cons] at ih ⊢ <;> omega

theorem width_even {g : Grid} (hW : g.WF) (hv : g.is_valid = true)
    (h01 : all01 g = true) (hh : g.height ≠ 0) : g.width % 2 = 0 := by
  have hck := is_valid_line_check hv (Nat.pos_of_ne_zero hh)
  have h0 := check_lane_count_le hck Cell.zero
  have h1 := check_lane_count_le hck Cell.one
  have hs := count_split_01 (g.line 0) (all01_line hW h01 (Nat.pos_of_ne_zero hh))
  rw [Grid.line_length] at h0 h1 hs
  omega

theorem height_even {g : Grid} (hW : g.WF) (hv : g.is_valid = true)
    (h01 : all01 g = true) (hw : g.width ≠ 0) : g.height % 2 = 0 := by
  have hck := is_valid_column_check hv (Nat.pos_of_ne_zero hw)
  have h0 := check_lane_count_le hck Cell.zero
  have h1 := check_lane_count_le hck Cell.one
  have hs := count_split_01 (g.column 0) (all01_column hW h01 (Nat.pos_of_ne_zero hw))
  rw [Grid.column_length] at h0 h1 hs
  omega

/-- C9 (amended).  For every well-formed grid whose cells are all
determined as `Zero` or `One` and which passes `is_valid` (as any grid the
solver reports solved does), rendering with the `Display` implementation
and re-parsing the rendered lines returns the very same grid. -/
theorem c9_roundtrip_amended (g : Grid) (hW : g.WF) (hh : g.height ≠ 0)
    (hw : g.width ≠ 0) (h01 : all01 g = true) (hv : g.is_valid = true) :
    Grid.parse g.render = Except.ok g := by
  have hweven := width_even hW hv h01 hh
  have hheven := height_even hW hv h01 hw
  rw [Grid.render_eq_map hW]
  cases hc : g.cells with
  | nil =>
    exfalso
    apply hh
    rw [← hW.1, hc]
    rfl
  | cons r0 rs =>
    have hall : ∀ r ∈ r0 :: rs, r.length = g.width ∧
        ∀ c ∈ r, c = Option.some Cell.zero ∨ c = Option.some Cell.one := by
      intro r hr
      rw [← hc] at hr
      exact ⟨hW.2 r hr, all01_row h01 hr⟩
    have hp := parse_lines_render hw hweven r0 rs hall
    rw [parse_of_lines_ok hp]
    have hlen : (r0 :: rs).length = g.height := by rw [← hW.1, hc]
    have hg : Grid.mk (r0 :: rs) g.width (r0 :: rs).length = g := by
      rcases g with ⟨cells, width, height⟩
      simp only at hc hlen
      rw [hc, hlen]
    rw [if_neg (by simp), if_neg (by rw [hlen]; simpa using hheven), hg,
      if_pos hv]

/-- Witness for C9: the valid 2×2 grid `0 1 / 1 0` round-trips. -/
theorem c9_roundtrip_amended_witness :
    (Grid.mk [[Option.some Cell.zero, Option.some Cell.one],
      [Option.some Cell.one, Option.some Cell.zero]] 2 2).WF ∧
    all01 (Grid.mk [[Option.some Cell.zero, Option.some Cell.one],
      [Option.some Cell.one, Option.some Cell.zero]] 2 2) = true ∧
    Grid.parse (Grid.mk [[Option.some Cell.zero, Option.some Cell.one],
      [Option.some Cell.one, Option.some Cell.zero]] 2 2).render =
      Except.ok (Grid.mk [[Option.some Cell.zero, Option.some Cell.one],
        [Option.some Cell.one, Option.some Cell.zero]] 2 2) :=
  ⟨by decide, by decide,
    c9_roundtrip_amended _ (by decide) (by decide) (by decide) (by decide) (by decide)⟩

/-! ### Heuristic characterization (C6) -/

theorem almostOf_iff {lane : List (Option Cell)} {gnum : Nat} {c : Cell} :
    almostOf lane gnum = Option.some c ↔
      countVal lane (Cell.not c) < countVal lane c ∧
      countVal lane c + gnum = lane.length / 2 := by
  constructor
  · intro h
    rcases List.exists_of_findSome?_eq_some h with ⟨a, _, hfa⟩
    by_cases hc : countVal lane (Cell.not a) < countVal lane a ∧
        countVal lane a + gnum = lane.length / 2
    · rw [if_pos hc] at hfa
      obtain rfl := Option.some.inj hfa
      exact hc
    · rw [if_neg hc] at hfa
      exact Option.noConfusion hfa
  · intro h
    have hcne : c ≠ Cell.none := by
      intro h2
      rw [h2] at h
      exact absurd h.1 (Nat.lt_irrefl _)
    unfold almostOf Cell.iter
    rw [List.findSome?_cons]
    have hnone : ¬(countVal lane (Cell.not Cell.none) < countVal lane Cell.none ∧
        countVal lane Cell.none + gnum = lane.length / 2) := by
      intro h2
      exact absurd h2.1 (Nat.lt_irrefl _)
    rw [if_neg hnone]
    rcases c with _ | _ | _
    · exact absurd rfl hcne
    · rw [List.findSome?_cons, if_pos h]
    · rw [List.findSome?_cons]
      have hzero : ¬(countVal lane (Cell.not Cell.zero) < countVal lane Cell.zero ∧
          countVal lane Cell.zero + gnum = lane.length / 2) := by
        intro h2
        have h3 := h.1
        have h4 := h2.1
        simp only [Cell.not] at h3 h4
        omega
      rw [if_neg hzero, List.findSome?_cons, if_pos h]

theorem tm_round_iff {lane : List (Option Cell)} {gnum k : Nat} {v : Option Cell} :
    (k, v) ∈ tm_round lane gnum ↔
      ∃ c : Cell, almostOf lane gnum = Option.some c ∧ k ∈ noneIdx lane ∧
        trialOk gnum lane c k = false ∧ v = Option.some (Cell.not c) := by
  unfold tm_round
  cases halm : almostOf lane gnum with
  | none =>
    simp only [List.not_mem_nil, false_iff]
    rintro ⟨c, hc, -⟩
    exact Option.noConfusion hc
  | some c0 =>
    constructor
    · intro h
      rcases List.mem_filterMap.1 h with ⟨k2, hk2, heq⟩
      by_cases ht : trialOk gnum lane c0 k2
      · rw [if_pos ht] at heq
        exact Option.noConfusion heq
      · rw [if_neg ht] at heq
        have h2 := Option.some.inj heq
        obtain rfl : k2 = k := congrArg Prod.fst h2
        exact ⟨c0, rfl, hk2, Bool.eq_false_iff.2 ht, (congrArg Prod.snd h2).symm⟩
    · rintro ⟨c, hc, hk, ht, rfl⟩
      obtain rfl := Option.some.inj hc
      apply List.mem_filterMap.2
      refine ⟨k, hk, ?_⟩
      rw [if_neg (by rw [ht]; exact Bool.noConfusion)]

/-- C6.  `(k, v)` is committed by `Grid::try_missings` exactly when `k` is
an undetermined position of the lane, some value `c` has the surplus with
deficit 1 (resp. 2), every trial placing `c` at `k` (alone, resp. jointly
with each other undetermined position) fails `check_lane`, and `v` is the
deficient value `Cell::not c`; moreover `fill_heuristics` only ever
changes undetermined cells of the grid — no tentative fill is persisted. -/
theorem c6_heuristic_commits_only_proven :
    (∀ (lane : List (Option Cell)) (k : Nat) (v : Option Cell),
      (k, v) ∈ try_missings lane ↔
        (k < lane.length ∧ lane.getD k Option.none = Option.none ∧
         ∃ c : Cell, v = Option.some (Cell.not c) ∧
           ((surplusDeficit lane c 1 ∧ trialFails1 lane c k) ∨
            (surplusDeficit lane c 2 ∧ trialFails2 lane c k)))) ∧
    (∀ (g : Grid) (i j : Nat), g.WF → (fill_heuristics g).1.get i j ≠ g.get i j →
      g.get i j = Option.none) := by
  constructor
  · intro lane k v
    have hnon : k ∈ noneIdx lane ↔
        k < lane.length ∧ lane.getD k Option.none = Option.none := by
      rw [noneIdx_mem]
      constructor
      · refine fun h => ⟨h.1, ?_⟩
        cases hg : lane.getD k Option.none
        · rfl
        · rw [hg] at h; exact absurd h.2 (by simp)
      · exact fun h => ⟨h.1, by rw [h.2]; rfl⟩
    have htr1 : ∀ c, trialOk 1 lane c k = false ↔ trialFails1 lane c k := by
      intro c
      unfold trialOk trialFails1
      rw [if_pos rfl]
    have htr2 : ∀ c, trialOk 2 lane c k = false ↔ trialFails2 lane c k := by
      intro c
      unfold trialOk trialFails2
      rw [if_neg (by omega)]
      rw [List.any_eq_false]
      constructor
      · intro h j hj hjk
        have h2 := h j hj
        simp only [Bool.and_eq_true, decide_eq_true_eq, not_and] at h2
        exact Bool.eq_false_iff.2 (h2 hjk)
      · intro h j hj
        simp only [Bool.and_eq_true, decide_eq_true_eq, not_and]
        intro hjk hck
        rw [h j hj hjk] at hck
        exact Bool.noConfusion hck
    unfold try_missings
    rw [List.mem_append, tm_round_iff, tm_round_iff]
    constructor
    · rintro (⟨c, halm, hk, ht, rfl⟩ | ⟨c, halm, hk, ht, rfl⟩)
      · have hn := hnon.1 hk
        exact ⟨hn.1, hn.2, c, rfl, Or.inl ⟨almostOf_iff.1 halm, (htr1 c).1 ht⟩⟩
      · have hn := hnon.1 hk
        exact ⟨hn.1, hn.2, c, rfl, Or.inr ⟨almostOf_iff.1 halm, (htr2 c).1 ht⟩⟩
    · rintro ⟨hlt, hget, c, rfl, (⟨hsd, htf⟩ | ⟨hsd, htf⟩)⟩
      · exact Or.inl ⟨c, almostOf_iff.2 hsd, hnon.2 ⟨hlt, hget⟩, (htr1 c).2 htf, rfl⟩
      · exact Or.inr ⟨c, almostOf_iff.2 hsd, hnon.2 ⟨hlt, hget⟩, (htr2 c).2 htf, rfl⟩
  · intro g i j hW h
    cases hg : g.get i j with
    | none => rfl
    | some c2 =>
      have h2 := (fill_heuristics_inv hW).2.2.2.2.2.2 i j c2 hg
      rw [h2, hg] at h
      exact absurd rfl h

/-- Witness for C6: on `laneW` the committed pair `(2, Some(One))` is
exactly characterized, and on the grid `gH` the only changed cell was
undetermined. -/
theorem c6_heuristic_commits_only_proven_witness :
    (2, Option.some Cell.one) ∈ try_missings laneW ∧ gH.get 0 2 = Option.none :=
  ⟨(c6_heuristic_commits_only_proven.1 laneW 2 (Option.some Cell.one)).2
    ⟨by decide, by decide, Cell.zero, rfl,
      Or.inl ⟨by unfold surplusDeficit; exact ⟨by decide, by decide⟩,
        by unfold trialFails1; decide⟩⟩,
   c6_heuristic_commits_only_proven.2 gH 0 2 (by decide) (by decide)⟩

/-! ### Propagation rules vs the spec's rules (C5) -/

theorem countVal_nonefree {lane : List (Option Cell)} (h : NoneFree lane) :
    countVal lane Cell.none = 0 := by
  unfold countVal
  rw [List.countP_eq_zero]
  intro a ha
  simp only [decide_eq_true_eq]
  exact h a ha

theorem fill_saturated_eq_spec {lane : List (Option Cell)} (hnf : NoneFree lane)
    (hlen : 2 ≤ lane.length) : fill_saturated lane = specSaturation lane := by
  unfold fill_saturated specSaturation Cell.iter
  have h0 := countVal_nonefree hnf
  have hhalf : 1 ≤ lane.length / 2 := by omega
  rw [List.find?_cons_of_neg _ (by simp only [decide_eq_true_eq]; omega)]
  by_cases hz : lane.length / 2 ≤ countVal lane Cell.zero
  · rw [List.find?_cons_of_pos _ (by simpa using hz), if_pos hz]
    rfl
  · rw [List.find?_cons_of_neg _ (by simpa using hz), if_neg hz]
    by_cases ho : lane.length / 2 ≤ countVal lane Cell.one
    · rw [List.find?_cons_of_pos _ (by simpa using ho), if_pos ho]
      rfl
    · rw [List.find?_cons_of_neg _ (by simpa using ho), if_neg ho]
      rfl

theorem fill_cell_eq_spec {x y : Option Cell} (hx : x ≠ Option.some Cell.none) :
    fill_cell x y = specPairRule x y := by
  rcases x with _ | cx
  · rcases y with _ | cy <;> rfl
  · rcases y with _ | cy
    · rcases cx <;> rfl
    · rcases cx with _ | _ | _
      · exact absurd rfl hx
      · rcases cy <;> decide
      · rcases cy <;> decide

theorem line_cell_nonefree {g : Grid} {i k : Nat} (h : NoneFree (g.line i))
    (hk : k < g.width) : g.get i k ≠ Option.some Cell.none := by
  rw [← Grid.line_getD hk]
  apply h
  exact lgetD_mem Option.none (by rw [Grid.line_length]; exact hk)

theorem column_cell_nonefree {g : Grid} {j k : Nat} (h : NoneFree (g.column j))
    (hk : k < g.height) : g.get k j ≠ Option.some Cell.none := by
  rw [← Grid.column_getD hk]
  apply h
  exact lgetD_mem Option.none (by rw [Grid.column_length]; exact hk)

theorem rowValue_eq_spec {g : Grid} {i j : Nat} (hj : j < g.width)
    (hline : NoneFree (g.line i)) {lane0 : List (Option Cell)}
    (h0 : NoneFree lane0) (hlen0 : 2 ≤ lane0.length) :
    rowValue g (fill_saturated lane0) i j = specFirstMatch lane0 (g.line i) j := by
  unfold rowValue specFirstMatch
  rw [fill_saturated_eq_spec h0 hlen0]
  have hlinelen : (g.line i).length = g.width := Grid.line_length g i
  have e2 : (if 2 ≤ j then fill_cell (g.get i (j - 2)) (g.get i (j - 1)) else Option.none) =
      (if 2 ≤ j then specPairRule ((g.line i).getD (j - 2) Option.none)
        ((g.line i).getD (j - 1) Option.none) else Option.none) := by
    by_cases h2 : 2 ≤ j
    · rw [if_pos h2, if_pos h2, Grid.line_getD (by omega), Grid.line_getD (by omega)]
      exact fill_cell_eq_spec (line_cell_nonefree hline (by omega))
    · rw [if_neg h2, if_neg h2]
  have e3 : (if j + 2 < g.width then fill_cell (g.get i (j + 1)) (g.get i (j + 2)) else Option.none) =
      (if j + 2 < (g.line i).length then specPairRule ((g.line i).getD (j + 1) Option.none)
        ((g.line i).getD (j + 2) Option.none) else Option.none) := by
    rw [hlinelen]
    by_cases h2 : j + 2 < g.width
    · rw [if_pos h2, if_pos h2, Grid.line_getD (by omega), Grid.line_getD (by omega)]
      exact fill_cell_eq_spec (line_cell_nonefree hline (by omega))
    · rw [if_neg h2, if_neg h2]
  have e4 : (if 1 ≤ j ∧ j + 1 < g.width then fill_cell (g.get i (j - 1)) (g.get i (j + 1)) else Option.none) =
      (if 1 ≤ j ∧ j + 1 < (g.line i).length then specPairRule ((g.line i).getD (j - 1) Option.none)
        ((g.line i).getD (j + 1) Option.none) else Option.none) := by
    rw [hlinelen]
    by_cases h2 : 1 ≤ j ∧ j + 1 < g.width
    · rw [if_pos h2, if_pos h2, Grid.line_getD (by omega), Grid.line_getD (by omega)]
      exact fill_cell_eq_spec (line_cell_nonefree hline (by omega))
    · rw [if_neg h2, if_neg h2]
  rw [e2, e3, e4]

theorem colValue_eq_spec {g : Grid} {i j : Nat} (hi : i < g.height)
    (hcol : NoneFree (g.column j)) {lane0 : List (Option Cell)}
    (h0 : NoneFree lane0) (hlen0 : 2 ≤ lane0.length) :
    colValue g (fill_saturated lane0) i j = specFirstMatch lane0 (g.column j) i := by
  unfold colValue specFirstMatch
  rw [fill_saturated_eq_spec h0 hlen0]
  have hcollen : (g.column j).length = g.height := Grid.column_length g j
  have e2 : (if 2 ≤ i then fill_cell (g.get (i - 2) j) (g.get (i - 1) j) else Option.none) =
      (if 2 ≤ i then specPairRule ((g.column j).getD (i - 2) Option.none)
        ((g.column j).getD (i - 1) Option.none) else Option.none) := by
    by_cases h2 : 2 ≤ i
    · rw [if_pos h2, if_pos h2, Grid.column_getD (by omega), Grid.column_getD (by omega)]
      exact fill_cell_eq_spec (column_cell_nonefree hcol (by omega))
    · rw [if_neg h2, if_neg h2]
  have e3 : (if i + 2 < g.height then fill_cell (g.get (i + 1) j) (g.get (i + 2) j) else Option.none) =
      (if i + 2 < (g.column j).length then specPairRule ((g.column j).getD (i + 1) Option.none)
        ((g.column j).getD (i + 2) Option.none) else Option.none) := by
    rw [hcollen]
    by_cases h2 : i + 2 < g.height
    · rw [if_pos h2, if_pos h2, Grid.column_getD (by omega), Grid.column_getD (by omega)]
      exact fill_cell_eq_spec (column_cell_nonefree hcol (by omega))
    · rw [if_neg h2, if_neg h2]
  have e4 : (if 1 ≤ i ∧ i + 1 < g.height then fill_cell (g.get (i - 1) j) (g.get (i + 1) j) else Option.none) =
      (if 1 ≤ i ∧ i + 1 < (g.column j).length then specPairRule ((g.column j).getD (i - 1) Option.none)
        ((g.column j).getD (i + 1) Option.none) else Option.none) := by
    rw [hcollen]
    by_cases h2 : 1 ≤ i ∧ i + 1 < g.height
    · rw [if_pos h2, if_pos h2, Grid.column_getD (by omega), Grid.column_getD (by omega)]
      exact fill_cell_eq_spec (column_cell_nonefree hcol (by omega))
    · rw [if_neg h2, if_neg h2]
  rw [e2, e3, e4]

/-- C5.  On grids whose lanes hold only the puzzle values (`NoneFree`, the
data model's own invariant), the value `fill_constraints` computes for an
undetermined cell — during the row sweep and during the column sweep — is
exactly the first match of the spec's four rules in priority order
(saturation judged on the lane as the sweep reached it, the three pair
rules on the current lane); and the solver's inner loop repeats
`fill_constraints` passes exactly until one reports no change. -/
theorem c5_propagation_rule_priority :
    (∀ (g : Grid) (i j : Nat) (lane0 : List (Option Cell)),
      j < g.width → NoneFree (g.line i) → NoneFree lane0 → 2 ≤ lane0.length →
      rowValue g (fill_saturated lane0) i j = specFirstMatch lane0 (g.line i) j) ∧
    (∀ (g : Grid) (i j : Nat) (lane0 : List (Option Cell)),
      i < g.height → NoneFree (g.column j) → NoneFree lane0 → 2 ≤ lane0.length →
      colValue g (fill_saturated lane0) i j = specFirstMatch lane0 (g.column j) i) ∧
    (∀ g : Grid, (fill_constraints g).2 = false →
      constraintsRun g = (fill_constraints g).1) ∧
    (∀ g : Grid, g.WF → (fill_constraints g).2 = true →
      constraintsRun g = constraintsRun (fill_constraints g).1) := by
  refine ⟨?_, ?_, ?_, ?_⟩
  · exact fun g i j lane0 hj hline h0 hlen0 =>
      rowValue_eq_spec hj hline h0 hlen0
  · exact fun g i j lane0 hi hcol h0 hlen0 =>
      colValue_eq_spec hi hcol h0 hlen0
  · intro g h
    unfold constraintsRun
    simp only [constraintsFix]
    rw [if_neg (by rw [h]; exact Bool.noConfusion)]
  · intro g hW h
    have hinv := fill_constraints_inv hW
    have hlt := hinv.2.2.2.2.1 h
    unfold constraintsRun
    simp only [constraintsFix]
    rw [if_pos h]
    exact constraintsFix_stable g.emptyCount hinv.1 _ (by omega)
      (Nat.lt_succ_self _)

/-- Witness for C5 on the concrete grid `cex3` (row 0 is `0 0 - - - -`):
both sweep rules coincide with the spec's first-match rules at cell
`(0, 2)`, and the inner loop equations instantiated at `cex3`. -/
theorem c5_propagation_rule_priority_witness :
    rowValue cex3 (fill_saturated (cex3.line 0)) 0 2 =
      specFirstMatch (cex3.line 0) (cex3.line 0) 2 ∧
    colValue cex3 (fill_saturated (cex3.column 0)) 2 0 =
      specFirstMatch (cex3.column 0) (cex3.column 0) 2 ∧
    constraintsRun cex3 = constraintsRun (fill_constraints cex3).1 :=
  ⟨c5_propagation_rule_priority.1 cex3 0 2 (cex3.line 0) (by decide)
      (by unfold NoneFree; decide) (by unfold NoneFree; decide) (by decide),
   c5_propagation_rule_priority.2.1 cex3 2 0 (cex3.column 0) (by decide)
      (by unfold NoneFree; decide) (by unfold NoneFree; decide) (by decide),
   c5_propagation_rule_priority.2.2.2 cex3 (by decide) (by decide)⟩

/-! ### Claim theorems on concrete inputs -/

/-- C1.  The soundness claim fails on the code: the parseable empty 4×4
puzzle is solved to `Ok`, yet the returned grid is not fully determined —
cell `(0,0)` renders as `'-'`, and row 0 holds one `One` instead of the
strict `width / 2 = 2`.  The cause: `Grid::fill_bruteforce` iterates
`Cell::iter()`, which includes the undetermined marker `Cell::None`, and a
branch assigning `Some(Cell::None)` can satisfy `is_valid` (the unused
`Cell::iter_some()` is evidently what was intended). -/
theorem c1_solve_returns_undetermined_cells :
    Grid.parse input4 = Except.ok g4 ∧
    Grid.solve g4 = Except.ok gN ∧
    all01 gN = false ∧
    cellChar (gN.get 0 0) = '-' ∧
    countVal (gN.line 0) Cell.one = 1 := by
  refine ⟨by decide, by decide, by decide, by decide, by decide⟩

/-- C2.  The backtracking claim fails on the code: `Grid::fill_bruteforce`
tries the three `Cell::iter()` values `None`, `Zero`, `One` — not just the
two determined values — and on the empty 4×4 puzzle the branch that
succeeds and replaces the grid is one that assigned the undetermined
marker `Cell::None` to the chosen cell `(0,0)`. -/
theorem c2_bruteforce_commits_none_variant :
    Grid.solve g4 = Except.ok gN ∧
    gN.get 0 0 = Option.some Cell.none ∧
    Cell.none ∉ [Cell.zero, Cell.one] := by
  refine ⟨by decide, by decide, by decide⟩

/-- C3, counterexample.  Validity is not preserved by a propagation step:
`cex3` passes `is_valid`, yet the grid produced by one `fill_constraints`
pass fails it (each row rule plants a `One` in column 2, giving three
consecutive equal cells). -/
theorem c3_propagation_breaks_validity :
    cex3.is_valid = true ∧ (fill_constraints cex3).1.is_valid = false := by
  refine ⟨by decide, by decide⟩

/-- C9, counterexample.  Re-parsing the rendering of a fully-determined
grid can fail instead of returning the grid: the all-zeros 2×2 grid is
fully determined, but `Grid::parse` rejects its rendering as
`InvalidGrid`, because `parse` re-runs `is_valid`. -/
theorem c9_roundtrip_fails_without_validity :
    all01 g00 = true ∧ g00.WF ∧
    Grid.parse g00.render = Except.error GridError.InvalidGrid := by
  refine ⟨by decide, by decide, by decide⟩
